import Mathlib

/-!
# socks2rtc: wire codec, signal relay and connection lifecycle

A shallow embedding of the Go sources of `gaukas/socks2rtc`
(`request.go`, `socks5.go`, `server.go`, `signal.go`, `internal/utils/encode.go`,
`internal/utils/http.go`) together with theorems about the embedded functions.

Conventions of the embedding:

* a Go `byte` is a `Fin 256`; a Go `[]byte` or a Go `string` used as raw bytes is a
  `List Byte`; a Go `string` used as text (network names, hex, base64, JSON strings)
  is a Lean `String`;
* a Go `uint64` is a `Nat`, with the bound `< 2 ^ 64` stated where it matters;
* a function that returns `(value, error)` returns a `Result`, whose third
  constructor `panic` stands for a Go run-time panic (index or slice out of range,
  failed type assertion), or an `Except Error` when it cannot panic;
* a loop that may run forever takes a bound on its iterations and returns `none` when
  the bound is reached;
* readers, writers, dialers, the clock and the random source are explicit
  arguments.
-/

namespace Socks2rtc

/-! ## Basic types -/

abbrev Byte := Fin 256

/-- A decoded JSON value, as `json.Unmarshal` stores it in an `interface{}`. The code
only asks whether a value is a string, so the other kinds carry no payload. -/
inductive JValue where
  | str (s : String)
  | number
  | bool (b : Bool)
  | null
  | array
  | object
  deriving DecidableEq

/-- A JSON object held in a `map[string]interface{}` (also a `gin.H`): key/value pairs,
read with `List.lookup`. -/
abbrev JObject := List (String × JValue)

/-- An HTTP body, represented by what `json.Unmarshal(body, &respMap)` makes of it:
`json o` is a body that unmarshals without error into the map `o` (the body `null`
gives the empty map), `raw bytes` is a body that `json.Unmarshal` rejects. The body
that `c.JSON(code, obj)` sends is `json obj`. -/
inductive Body where
  | json (o : JObject)
  | raw (bytes : List Byte)
  deriving DecidableEq

/-- The two errors a `*strconv.NumError` of `ParseUint` wraps: `strconv.ErrSyntax`
("invalid syntax") and `strconv.ErrRange` ("value out of range"). -/
inductive NumErrKind where
  | ErrSyntax
  | ErrRange
  deriving DecidableEq

/-- A `*strconv.NumError`: the function that failed, the string it was given and the
reason. Its text is `strconv.<Func>: parsing <Num, quoted>: <Err>`. -/
structure NumError where
  Func : String
  Num : String
  Err : NumErrKind
  deriving DecidableEq

/-- One argument of a `fmt.Errorf` call. -/
inductive Arg where
  /-- an integer printed with `%d` -/
  | int (i : Int)
  /-- a raw response body printed with `%s` -/
  | body (b : Body)
  /-- an `interface{}` taken from the response map, printed with `%s` -/
  | value (v : JValue)
  /-- a `*strconv.NumError` printed with `%s`; its text quotes the string that did not
  parse -/
  | numError (e : NumError)
  /-- a `base64.CorruptInputError` printed with `%s`; the byte offset it carries is left
  out -/
  | corruptInput
  deriving DecidableEq

/-- Errors of the tunnel codec, the proxy and the signal relay. -/
inductive Error where
  /-- an error reported by the underlying reader, writer, dialer or HTTP transport -/
  | transport (msg : String)
  /-- `fmt.Errorf("invalid command: %d", buf[0])` in `ReadRequest` -/
  | invalidCommand (b : Byte)
  /-- `socks5.ErrConnNotAllowed`, returned by `ReadRequest` for an unknown address type -/
  | ErrConnNotAllowed
  /-- `socks5.ErrNetworkUnreachable`, returned by `WriteTo` for an unknown network name -/
  | ErrNetworkUnreachable
  /-- `fmt.Errorf("socks5: invalid response")` in `connectOnce` -/
  | invalidResponse
  /-- `socks5.ErrCommandNotSupported` -/
  | ErrCommandNotSupported
  /-- `base64.CorruptInputError` from `StdEncoding.Decode` -/
  | corruptInput
  /-- a `*strconv.NumError` from `strconv.ParseUint` -/
  | numError (e : NumError)
  /-- any other `fmt.Errorf(format, args...)` -/
  | errorf (format : String) (args : List Arg)
  deriving DecidableEq

/-- Outcome of a Go function returning `(value, error)`; `panic` is a run-time panic. -/
inductive Result (α : Type) where
  | ok (a : α)
  | error (e : Error)
  | panic
  deriving DecidableEq

deriving instance DecidableEq for Except

/-! ## Protocol constants (`socks5.go`, lines 17-25) -/

/-- Modelled from the spec: `socks5.REQUEST_CMD_CONNECT` of the external package
`github.com/gaukas/socks5`; the command byte for CONNECT is `0x01`. -/
def CONNECT : Byte := 1
/-- Modelled from the spec: `socks5.REQUEST_CMD_BIND` of the external package
`github.com/gaukas/socks5` (RFC 1928 value). -/
def BIND : Byte := 2
/-- Modelled from the spec: `socks5.REQUEST_CMD_UDP_ASSOCIATE` of the external package
`github.com/gaukas/socks5` (RFC 1928 value). -/
def UDP : Byte := 3
/-- Modelled from the spec: `socks5.REQUEST_ATYP_DOMAINNAME`, the marker of `tcp`, `0x03`. -/
def TCP : Byte := 3
/-- Modelled from the spec: `socks5.REQUEST_ATYP_IPV4`, the marker of `tcp4`, `0x01`. -/
def TCP4 : Byte := 1
/-- Modelled from the spec: `socks5.REQUEST_ATYP_IPV6`, the marker of `tcp6`, `0x04`. -/
def TCP6 : Byte := 4

/-! ## Readers and writers -/

/-- An `io.Reader` as seen by one `Read` call: either the call fails with `err`, or it
delivers `data` (as much of it as fits the buffer). The contract of `io.Reader` lets a
`Read` use all of the buffer as scratch space, also past the `n` bytes it returns:
`scratch` is what the call leaves in the buffer right after the delivered bytes, as
far as it wrote there. With an empty `scratch` the bytes past `n` keep their old
value. -/
structure Reader where
  err : Option Error
  data : List Byte
  scratch : List Byte

/-- One call `r.Read(buf)`: the new buffer contents, `n` and `err`. The buffer keeps
its length; the first `n` bytes are the delivered ones, the bytes after them are
overwritten by `scratch` as far as it reaches. -/
def Reader.Read (r : Reader) (buf : List Byte) : List Byte × Nat × Option Error :=
  match r.err with
  | some e => (buf, 0, some e)
  | none =>
    let chunk := r.data.take buf.length
    let rest := buf.drop chunk.length
    (chunk ++ (r.scratch.take rest.length ++ rest.drop r.scratch.length), chunk.length, none)

/-- An `io.Writer`: `chunks` records the argument of every `Write` call so far, oldest
first; `outcome` is what a `Write` of the given bytes returns. -/
structure Writer where
  chunks : List (List Byte)
  outcome : List Byte → Nat × Option Error

/-- One call `w.Write(p)`. -/
def Writer.Write (w : Writer) (p : List Byte) : Writer × Nat × Option Error :=
  ({ w with chunks := w.chunks ++ [p] }, w.outcome p)

/-- Go slice expression `buf[lo:hi]` on a slice whose capacity is its length: panics
(here `none`) unless `lo ≤ hi ≤ len(buf)`. -/
def slice (buf : List Byte) (lo hi : Nat) : Option (List Byte) :=
  if lo ≤ hi ∧ hi ≤ buf.length then some ((buf.take hi).drop lo) else none

/-! ## `request.go` -/

structure Request where
  Command : Byte
  NetworkType : String
  Address : List Byte
  deriving DecidableEq

abbrev Response := Request

/-- The `switch buf[1]` of `ReadRequest` (request.go, lines 35-44): the network name of
an address-type byte, `none` for the `default` branch. -/
def netName (b : Byte) : Option String :=
  if b = TCP then some "tcp"
  else if b = TCP4 then some "tcp4"
  else if b = TCP6 then some "tcp6"
  else none

/-- The `switch r.NetworkType` of `WriteTo` (request.go, lines 53-62): the address-type
byte of a network name, `none` for the `default` branch. -/
def netByte (s : String) : Option Byte :=
  if s = "tcp" then some TCP
  else if s = "tcp4" then some TCP4
  else if s = "tcp6" then some TCP6
  else none

/-- Function `ReadRequest` (request.go, lines 20-49). -/
def ReadRequest (r : Reader) : Result Request :=
  let buf := List.replicate 1024 (0 : Byte)
  match r.Read buf with
  | (_, _, some err) => .error err
  | (buf, n, none) =>
    match buf[0]? with
    | none => .panic
    | some b0 =>
      if b0 ≠ CONNECT ∧ b0 ≠ BIND ∧ b0 ≠ UDP then .error (.invalidCommand b0)
      else
        match buf[1]? with
        | none => .panic
        | some b1 =>
          match netName b1 with
          | none => .error .ErrConnNotAllowed
          | some nt =>
            match slice buf 2 n with
            | none => .panic
            | some addr => .ok { Command := b0, NetworkType := nt, Address := addr }

/-- Variable `ReadResponse` is the same function (request.go, line 18). -/
def ReadResponse : Reader → Result Response := ReadRequest

/-- Method `Request.WriteTo` (request.go, lines 51-69): the writer afterwards, the returned
`int64` and the returned error. -/
def Request.WriteTo (r : Request) (w : Writer) : Writer × Int × Option Error :=
  match netByte r.NetworkType with
  | none => (w, 0, some .ErrNetworkUnreachable)
  | some netType =>
    let req := [r.Command, netType] ++ r.Address
    match w.Write req with
    | (w1, n, err) => (w1, (n : Int), err)

/-- Bytes of an ASCII text. -/
def ascii (s : String) : List Byte := s.toList.map (fun c => Fin.ofNat c.toNat)

/-! ## `internal/utils/encode.go` and the text codecs it and `signal.go` call

`encoding/base64`, `strconv` and `fmt` are Go's standard library; the functions below
give the behaviour of `base64.StdEncoding`, of `strconv.ParseUint(s, 16, 64)` and of
`fmt.Sprintf("%x", u)`. -/

/-- The byte with the given value (mod 256). -/
def toByte (n : Nat) : Byte := ⟨n % 256, Nat.mod_lt _ (by decide)⟩

/-- Character of a 6-bit value in the standard base64 alphabet
`A-Z a-z 0-9 + /`. -/
def b64Char (s : Nat) : Char :=
  Char.ofNat (if s < 26 then 65 + s else if s < 52 then 71 + s else if s < 62 then s - 4
    else if s = 62 then 43 else 47)

/-- The 6-bit value of a character of the standard base64 alphabet, `none` for any other
character (also for the padding `=`). -/
def b64Index (c : Char) : Option Nat :=
  let n := c.toNat
  if 65 ≤ n ∧ n ≤ 90 then some (n - 65)
  else if 97 ≤ n ∧ n ≤ 122 then some (n - 71)
  else if 48 ≤ n ∧ n ≤ 57 then some (n + 4)
  else if n = 43 then some 62
  else if n = 47 then some 63
  else none

/-- Encoding `base64.StdEncoding.Encode`: three bytes give four characters, a last
group of one or two bytes is padded with `=`. -/
def b64Encode : List Byte → List Char
  | [] => []
  | [a] => [b64Char (a.val / 4), b64Char (a.val % 4 * 16), '=', '=']
  | [a, b] =>
    [b64Char (a.val / 4), b64Char (a.val % 4 * 16 + b.val / 16), b64Char (b.val % 16 * 4), '=']
  | a :: b :: c :: rest =>
    b64Char (a.val / 4) :: b64Char (a.val % 4 * 16 + b.val / 16)
      :: b64Char (b.val % 16 * 4 + c.val / 64) :: b64Char (c.val % 64) :: b64Encode rest

/-- Decoding of the groups of four characters of `base64.StdEncoding.Decode`, after the
line breaks are dropped: a full group gives three bytes; a group padded with `=` gives
two bytes, one padded with `==` gives one byte, and both must end the input; anything
else is corrupt input (`none`). -/
def b64DecodeGroups : List Char → Option (List Byte)
  | [] => some []
  | c0 :: c1 :: c2 :: c3 :: rest =>
    match b64Index c0, b64Index c1 with
    | some s0, some s1 =>
      match b64Index c2, b64Index c3 with
      | some s2, some s3 =>
        match b64DecodeGroups rest with
        | some out =>
          some (toByte (s0 * 4 + s1 / 16) :: toByte (s1 % 16 * 16 + s2 / 4)
            :: toByte (s2 % 4 * 64 + s3) :: out)
        | none => none
      | some s2, none =>
        if c3 = '=' ∧ rest = [] then
          some [toByte (s0 * 4 + s1 / 16), toByte (s1 % 16 * 16 + s2 / 4)]
        else none
      | none, _ =>
        if c2 = '=' ∧ c3 = '=' ∧ rest = [] then some [toByte (s0 * 4 + s1 / 16)] else none
    | _, _ => none
  | _ => none

/-- Decoding `base64.StdEncoding.Decode`: carriage returns and line feeds are skipped,
the rest is decoded group by group. -/
def b64Decode (src : List Char) : Option (List Byte) :=
  b64DecodeGroups (src.filter (fun c => c ≠ '\n' ∧ c ≠ '\r'))

/-- Function `ToBase64` (encode.go, lines 7-11). -/
def ToBase64 (inp : List Byte) : String := String.mk (b64Encode inp)

/-- Function `FromBase64` (encode.go, lines 13-20). -/
def FromBase64 (inp : String) : Except Error (List Byte) :=
  match b64Decode inp.data with
  | none => .error .corruptInput
  | some out => .ok out

/-- The hexadecimal digit character of a value below 16, lower case as `%x` prints it. -/
def hexDigitChar (d : Nat) : Char := Char.ofNat (if d < 10 then 48 + d else 87 + d)

/-- The value of a hexadecimal digit, either case, `none` for any other character. -/
def hexVal (c : Char) : Option Nat :=
  let n := c.toNat
  if 48 ≤ n ∧ n ≤ 57 then some (n - 48)
  else if 97 ≤ n ∧ n ≤ 102 then some (n - 87)
  else if 65 ≤ n ∧ n ≤ 70 then some (n - 55)
  else none

/-- The hexadecimal digits of `n`, most significant first, without leading zeros; at
most `fuel` digits, the lowest ones. -/
def hexDigits : Nat → Nat → List Nat
  | 0, _ => []
  | fuel + 1, n => if n / 16 = 0 then [n % 16] else hexDigits fuel (n / 16) ++ [n % 16]

/-- Formatting `fmt.Sprintf("%x", u)` of a `uint64`, which has at most 16 digits. -/
def formatHex (u : Nat) : String := String.mk ((hexDigits 16 u).map hexDigitChar)

/-- The digit loop of `strconv.ParseUint(s, 16, 64)`, left to right: a character that
is no hexadecimal digit is a syntax error; a digit that takes the value out of the
`uint64` range is a range error. -/
def parseHexDigits : List Char → Nat → Except NumErrKind Nat
  | [], acc => .ok acc
  | c :: cs, acc =>
    match hexVal c with
    | none => .error .ErrSyntax
    | some d =>
      if acc * 16 + d < 2 ^ 64 then parseHexDigits cs (acc * 16 + d) else .error .ErrRange

/-- Parsing `strconv.ParseUint(s, 16, 64)`: the empty string is a syntax error; every
error is a `*strconv.NumError` that names `ParseUint` and carries `s`. -/
def ParseUint16 (s : String) : Except NumError Nat :=
  if s.data = [] then .error ⟨"ParseUint", s, .ErrSyntax⟩
  else
    match parseHexDigits s.data 0 with
    | .error kind => .error ⟨"ParseUint", s, kind⟩
    | .ok n => .ok n

/-! ## `signal.go`: the signal server -/

structure receivedOffer where
  offerID : Nat
  offer : List Byte
  deriving DecidableEq

/-- Struct `WebAnswer`; `Expiry` is a point in time, counted in nanoseconds. -/
structure WebAnswer where
  Expiry : Nat
  OwnerUID : Nat
  Answer : List Byte
  deriving DecidableEq

/-- Struct `WebSignalServer`: `offerQueue` is the content of the channel, oldest offer
first (its capacity of 1024, past which a send blocks, is not modelled); `answerMap` and
`passwords` are the two Go maps. -/
structure WebSignalServer where
  offerQueue : List receivedOffer
  answerMap : Nat → Option WebAnswer
  answerValidFor : Nat
  passwords : List (Nat × List Byte)

/-- What a gin handler did with the request: called the configured
`wss.antiProbingHandler(c)`, or replied with `c.JSON(code, obj)`. -/
inductive HandlerOutcome where
  | antiProbing
  | json (code : Nat) (obj : JObject)
  deriving DecidableEq

/-- The form fields `offer`, `mac` and `uid` of a POST, as `c.PostForm` returns them
(the empty string for an absent field). -/
structure OfferForm where
  offer : String
  mac : String
  uid : String
  deriving DecidableEq

/-- The query parameters `oid` and `uid` of a GET, as `c.Query` returns them (the empty
string for an absent parameter). -/
structure AnswerQuery where
  oid : String
  uid : String
  deriving DecidableEq

/-- One second, in nanoseconds (`time.Second`). -/
def second : Nat := 1000000000

/-- Function `NewWebSignalServer` (signal.go, lines 208-239): the server state it builds. -/
def NewWebSignalServer (passwords : List (Nat × List Byte)) : Result WebSignalServer :=
  if passwords.length = 0 then .error (.errorf "empty public keys" [])
  else .ok
    { offerQueue := []
      answerMap := fun _ => none
      answerValidFor := 60 * second
      passwords := passwords }

/-- Method `ReadOffer` (signal.go, lines 246-249): the receive takes the oldest offer;
on an empty queue it blocks (`none`). -/
def WebSignalServer.ReadOffer (wss : WebSignalServer) :
    Option (WebSignalServer × Nat × List Byte × Option Error) :=
  match wss.offerQueue with
  | [] => none
  | offer :: rest => some ({ wss with offerQueue := rest }, offer.offerID, offer.offer, none)

/-- Method `Answer` (signal.go, lines 251-264). -/
def WebSignalServer.Answer (wss : WebSignalServer) (offerID : Nat) (answer : List Byte) :
    WebSignalServer × Option Error :=
  match wss.answerMap offerID with
  | none => (wss, some (.errorf "offer ID not found" []))
  | some answerObj =>
    let answerObj := { answerObj with Answer := answer }
    ({ wss with answerMap := Function.update wss.answerMap offerID (some answerObj) }, none)

/-- Method `offerHandler` (signal.go, lines 288-345). `hmac key msg` is
HMAC-SHA256, `rnd` the value `rand.Uint64()` returns and `now` the value of
`time.Now()`. -/
def WebSignalServer.offerHandler (hmac : List Byte → List Byte → List Byte)
    (wss : WebSignalServer) (c : OfferForm) (rnd now : Nat) :
    WebSignalServer × HandlerOutcome :=
  match FromBase64 c.offer with
  | .error _ => (wss, .antiProbing)
  | .ok offer =>
    match FromBase64 c.mac with
    | .error _ => (wss, .antiProbing)
    | .ok mac =>
      match ParseUint16 c.uid with
      | .error _ => (wss, .antiProbing)
      | .ok uid =>
        match wss.passwords.lookup uid with
        | none => (wss, .antiProbing)
        | some password =>
          if hmac password offer ≠ mac then (wss, .antiProbing)
          else
            let offerID := rnd
            let wss1 := { wss with offerQueue := wss.offerQueue ++ [receivedOffer.mk offerID offer] }
            let wss2 := { wss1 with
              answerMap := Function.update wss1.answerMap offerID
                (some { Expiry := now + wss.answerValidFor, OwnerUID := uid, Answer := [] }) }
            (wss2, .json 200
              [("status", .str "success"), ("offer_id", .str (formatHex offerID))])

/-- The first part of `offerHandler`, up to and including the queue send (signal.go,
lines 288-332): the parsing of the form, the checks under `passwdMutex.RLock`, the
draw of the id and the send `wss.offerQueue <- ...`. The second component is `none`
when the handler called the anti-probing responder and returned, and
`some (offerID, uid)` when the offer was sent and the handler goes on to the section
under `answerMutex`. -/
def WebSignalServer.offerHandlerSend (hmac : List Byte → List Byte → List Byte)
    (wss : WebSignalServer) (c : OfferForm) (rnd : Nat) :
    WebSignalServer × Option (Nat × Nat) :=
  match FromBase64 c.offer with
  | .error _ => (wss, none)
  | .ok offer =>
    match FromBase64 c.mac with
    | .error _ => (wss, none)
    | .ok mac =>
      match ParseUint16 c.uid with
      | .error _ => (wss, none)
      | .ok uid =>
        match wss.passwords.lookup uid with
        | none => (wss, none)
        | some password =>
          if hmac password offer ≠ mac then (wss, none)
          else
            let offerID := rnd
            ({ wss with offerQueue := wss.offerQueue ++ [receivedOffer.mk offerID offer] },
              some (offerID, uid))

/-- The second part of `offerHandler` (signal.go, lines 333-344): the section under
`answerMutex` that adds the empty answer for the id, and the reply. -/
def WebSignalServer.offerHandlerStore (wss : WebSignalServer) (offerID uid now : Nat) :
    WebSignalServer × HandlerOutcome :=
  ({ wss with
      answerMap := Function.update wss.answerMap offerID
        (some { Expiry := now + wss.answerValidFor, OwnerUID := uid, Answer := [] }) },
    .json 200 [("status", .str "success"), ("offer_id", .str (formatHex offerID))])

/-- Method `answerHandler` (signal.go, lines 347-403). -/
def WebSignalServer.answerHandler (wss : WebSignalServer) (c : AnswerQuery) :
    WebSignalServer × HandlerOutcome :=
  let offerID := c.oid
  if offerID = "" then (wss, .antiProbing)
  else
    let userID := c.uid
    if userID = "" then (wss, .antiProbing)
    else
      match ParseUint16 offerID with
      | .error _ => (wss, .antiProbing)
      | .ok offerIDUint =>
        match ParseUint16 userID with
        | .error _ => (wss, .antiProbing)
        | .ok ownerIDUint =>
          match wss.answerMap offerIDUint with
          | none => (wss, .antiProbing)
          | some answer =>
            if answer.OwnerUID ≠ ownerIDUint then (wss, .antiProbing)
            else if answer.Answer = [] then (wss, .json 200 [("status", .str "pending")])
            else
              ({ wss with answerMap := Function.update wss.answerMap offerIDUint none },
                .json 200
                  [("status", .str "success"), ("answer", .str (ToBase64 answer.Answer))])

/-- Repeated polling: `n` calls of `answerHandler` with the same query, one after the
other; the server afterwards and the outcomes in order. -/
def WebSignalServer.pollAnswer (wss : WebSignalServer) (c : AnswerQuery) :
    Nat → WebSignalServer × List HandlerOutcome
  | 0 => (wss, [])
  | n + 1 =>
    let r := wss.answerHandler c
    let rs := WebSignalServer.pollAnswer r.1 c n
    (rs.1, r.2 :: rs.2)

/-- One iteration of the `range` loop of `startAnswerCleaner` (signal.go, lines 408-412):
the entry under the key `k` is looked at when `time.Now()` is `now`, and deleted if `now`
is after its expiry. For a key with no entry nothing happens. -/
def WebSignalServer.cleanEntry (wss : WebSignalServer) (k now : Nat) : WebSignalServer :=
  match wss.answerMap k with
  | none => wss
  | some v =>
    if now > v.Expiry then { wss with answerMap := Function.update wss.answerMap k none }
    else wss

/-- One pass of the sweep, the body of the ticker loop of `startAnswerCleaner`
(signal.go, lines 407-413), under `answerMutex`. `visits` lists, in the order the
`range` loop meets them, the keys together with the value `time.Now()` has when each
is looked at. -/
def WebSignalServer.answerCleanerPass (wss : WebSignalServer) (visits : List (Nat × Nat)) :
    WebSignalServer :=
  visits.foldl (fun w kv => w.cleanEntry kv.1 kv.2) wss

/-- Method `startAnswerCleaner` (signal.go, lines 405-415), for the ticks in `ticks`:
one pass for each tick, in order. -/
def WebSignalServer.startAnswerCleaner (wss : WebSignalServer)
    (ticks : List (List (Nat × Nat))) : WebSignalServer :=
  ticks.foldl (fun w visits => w.answerCleanerPass visits) wss

/-! ## `internal/utils/http.go` -/

/-- An `https://` URL: host (with port), path and query parameters. -/
structure Url where
  host : String
  path : String
  query : List (String × String)
  deriving DecidableEq

/-- An `*http.Response`: its status code, and what `io.ReadAll(res.Body)` returns. -/
structure HttpResponse where
  StatusCode : Int
  body : Body
  readErr : Option Error
  deriving DecidableEq

/-- The `http.Client` with its transport and the network behind it: each request
returns `(res, err)`, where `res` may be nil (`none`), and changes the state `σ` of
whatever serves the requests. -/
structure HttpClient (σ : Type) where
  PostForm : Url → List (String × String) → σ → (Option HttpResponse × Option Error) × σ
  Get : Url → σ → (Option HttpResponse × Option Error) × σ

/-- Function `HttpsGet` (http.go, lines 22-33): `(status, body, err)`, or `none` when the
call panics on the nil pointer dereference `res.StatusCode` or `res.Body`. A nil body
is `Body.raw []`. -/
def HttpsGet {σ : Type} (client : HttpClient σ) (url : Url) (net : σ) :
    Option (Int × Body × Option Error) × σ :=
  match client.Get url net with
  | ((res, some err), net1) =>
    match res with
    | none => (none, net1)
    | some res => (some (res.StatusCode, Body.raw [], some err), net1)
  | ((none, none), net1) => (none, net1)
  | ((some res, none), net1) => (some (res.StatusCode, res.body, res.readErr), net1)

/-- Function `HttpsPost` (http.go, lines 35-46): as `HttpsGet`. -/
def HttpsPost {σ : Type} (client : HttpClient σ) (url : Url) (values : List (String × String))
    (net : σ) : Option (Int × Body × Option Error) × σ :=
  match client.PostForm url values net with
  | ((res, some err), net1) =>
    match res with
    | none => (none, net1)
    | some res => (some (res.StatusCode, Body.raw [], some err), net1)
  | ((none, none), net1) => (none, net1)
  | ((some res, none), net1) => (some (res.StatusCode, res.body, res.readErr), net1)

/-! ## `signal.go`: the signal client -/

structure WebSignalClient where
  BaseURL : String
  UserID : Nat
  Password : List Byte

/-- The response handling of `Offer` (signal.go, lines 74-97). The type assertions
`status.(string)` and `offerID.(string)` panic on a value that is no string. -/
def WebSignalClient.offerResponse (httpStatus : Int) (resp : Body) : Result Nat :=
  match resp with
  | .raw _ =>
    .error (.errorf "failed to parse JSON response, HTTP status: %d, response: %s"
      [.int httpStatus, .body resp])
  | .json respMap =>
    match respMap.lookup "status" with
    | some status =>
      match status with
      | .str st =>
        if st ≠ "success" then
          .error (.errorf "failed to send offer, status: %s, HTTP status: %d, response: %s"
            [.value status, .int httpStatus, .body resp])
        else
          match respMap.lookup "offer_id" with
          | some offerID =>
            match offerID with
            | .str h =>
              match ParseUint16 h with
              | .error err =>
                .error (.errorf "failed to parse offer ID, error: %s" [.numError err])
              | .ok i => .ok i
            | _ => .panic
          | none => .error (.errorf "failed to get offer ID from response" [])
      | _ => .panic
    | none => .error (.errorf "failed to get status from response, response: %s" [.body resp])

/-- Method `WebSignalClient.Offer` (signal.go, lines 49-97). -/
def WebSignalClient.Offer {σ : Type} (hmac : List Byte → List Byte → List Byte)
    (client : HttpClient σ) (wsc : WebSignalClient) (offer : List Byte) (net : σ) :
    Result Nat × σ :=
  if wsc.BaseURL = "" then (.error (.errorf "empty BaseURL is not allowed" []), net)
  else
    let offerMacB64 := ToBase64 (hmac wsc.Password offer)
    let offerB64 := ToBase64 offer
    let postForm := [("offer", offerB64), ("mac", offerMacB64), ("uid", formatHex wsc.UserID)]
    match HttpsPost client ⟨wsc.BaseURL, "/offer", []⟩ postForm net with
    | (none, net1) => (.panic, net1)
    | (some (_, _, some err), net1) => (.error err, net1)
    | (some (httpStatus, resp, none), net1) =>
      (WebSignalClient.offerResponse httpStatus resp, net1)

/-- The polling loop of `ReadAnswer` (signal.go, lines 114-156), run for at most `fuel`
requests: `none` when the server still says "pending" after `fuel` requests. The two
seconds the loop sleeps between requests are not modelled. -/
def WebSignalClient.readAnswerLoop {σ : Type} (client : HttpClient σ) (wsc : WebSignalClient)
    (offerID : Nat) : Nat → σ → Option (Result (List Byte)) × σ
  | 0, net => (none, net)
  | fuel + 1, net =>
    match HttpsGet client
        ⟨wsc.BaseURL, "/answer", [("oid", formatHex offerID), ("uid", formatHex wsc.UserID)]⟩
        net with
    | (none, net1) => (some .panic, net1)
    | (some (_, _, some err), net1) => (some (.error err), net1)
    | (some (httpStatus, resp, none), net1) =>
      match resp with
      | .raw _ =>
        (some (.error (.errorf "failed to parse JSON response, HTTP status: %d, response: %s"
          [.int httpStatus, .body resp])), net1)
      | .json respMap =>
        match respMap.lookup "status" with
        | some status =>
          match status with
          | .str st =>
            if st ≠ "success" then
              if st = "pending" then WebSignalClient.readAnswerLoop client wsc offerID fuel net1
              else
                (some (.error (.errorf
                  "failed to get answer, status: %s, HTTP status: %d, response: %s"
                  [.value status, .int httpStatus, .body resp])), net1)
            else
              match respMap.lookup "answer" with
              | some (.str answerB64) =>
                match FromBase64 answerB64 with
                | .error _ =>
                  (some (.error (.errorf "failed to decode answer from base64, error: %s"
                    [.corruptInput])), net1)
                | .ok answer => (some (.ok answer), net1)
              | _ => (some (.error (.errorf "failed to get answer from response" [])), net1)
          | _ => (some .panic, net1)
        | none =>
          (some (.error (.errorf "failed to get status from response, response: %s"
            [.body resp])), net1)

/-- Method `WebSignalClient.ReadAnswer` (signal.go, lines 109-157). -/
def WebSignalClient.ReadAnswer {σ : Type} (client : HttpClient σ) (wsc : WebSignalClient)
    (offerID : Nat) (fuel : Nat) (net : σ) : Option (Result (List Byte)) × σ :=
  if wsc.BaseURL = "" then
    (some (.error (.errorf "empty AnswerFromURL is not allowed" [])), net)
  else WebSignalClient.readAnswerLoop client wsc offerID fuel net

/-- The HTTP response a handler outcome becomes: the configured anti-probing handler
answers `anti` (by default status 404 with an empty body), `c.JSON(code, obj)` answers
`code` with the body `obj`. -/
def HandlerOutcome.toResponse (anti : HttpResponse) : HandlerOutcome → HttpResponse
  | .antiProbing => anti
  | .json code obj => { StatusCode := code, body := .json obj, readErr := none }

/-- The default anti-probing handler `c.AbortWithStatus(http.StatusNotFound)`
(signal.go, lines 230-234). -/
def defaultAntiProbing : HttpResponse := { StatusCode := 404, body := .raw [], readErr := none }

/-- An HTTPS transport whose requests all reach one signal server without failure, as
the routes of `NewWebSignalServer` dispatch them (signal.go, lines 228-236): POST
`/offer` to `offerHandler`, GET `/answer` to `answerHandler`, any other path to the
anti-probing handler. Every request is served at time `now`, with `rnd` as the value
of `rand.Uint64()`. -/
def WebSignalServer.serve (hmac : List Byte → List Byte → List Byte) (anti : HttpResponse)
    (rnd now : Nat) : HttpClient WebSignalServer where
  PostForm := fun url values wss =>
    if url.path = "/offer" then
      let out := wss.offerHandler hmac
        { offer := (values.lookup "offer").getD "", mac := (values.lookup "mac").getD "",
          uid := (values.lookup "uid").getD "" } rnd now
      ((some (out.2.toResponse anti), none), out.1)
    else ((some anti, none), wss)
  Get := fun url wss =>
    if url.path = "/answer" then
      let out := wss.answerHandler
        { oid := (url.query.lookup "oid").getD "", uid := (url.query.lookup "uid").getD "" }
      ((some (out.2.toResponse anti), none), out.1)
    else ((some anti, none), wss)

/-! ## Connections -/

/-- A `net.Conn`: what its next `Read` delivers, the record of its `Write` calls, and
the settings the code changes. Times are in nanoseconds; `none` is the zero
`time.Time`, which disables a deadline. -/
structure Conn where
  reader : Reader
  writer : Writer
  closed : Bool
  readDeadline : Option Nat
  deadline : Option Nat
  idleTimeout : Option Int
  localAddr : List Byte

def Conn.Close (c : Conn) : Conn := { c with closed := true }

def Conn.SetReadDeadline (c : Conn) (t : Option Nat) : Conn := { c with readDeadline := t }

def Conn.SetDeadline (c : Conn) (t : Option Nat) : Conn := { c with deadline := t }

/-- Method `IdleKiller` of `transportc.Conn`, recorded only. -/
def Conn.IdleKiller (c : Conn) (timeout : Int) : Conn := { c with idleTimeout := some timeout }

/-- A `net.Addr`: what `Network()` and `String()` return. -/
structure Addr where
  Network : String
  String : List Byte
  deriving DecidableEq

/-- The label `fmt.Sprintf("%s-%s-%s", dst.Network(), dst.String(), utils.RandSeq(5))`,
kept as its three parts. -/
structure Label where
  network : String
  address : List Byte
  suffix : String
  deriving DecidableEq

/-! ## `socks5.go`: the client dialer -/

/-- What the environment does during one attempt of `connectOnce`: the result
`(dialer, err)` of `p.Config.NewDialer()` should it be called (a dialer is known by
its identity, a number; `none` is nil), the result of `DialContext` on a dialer with
the context timeout and the label, the string `utils.RandSeq(5)` returns and the
value of `time.Now()`. -/
structure DialEnv where
  NewDialer : Option Nat × Option Error
  DialContext : Nat → Option Int → Label → Except Error Conn
  randSeq : String
  now : Nat

/-- Struct `Socks5Proxy`: `createDialerOnce` is true once the `sync.Once` has run;
`rtcDialer` is the identity of the shared dialer, `none` for nil. -/
structure Socks5Proxy where
  Timeout : Int
  createDialerOnce : Bool
  rtcDialer : Option Nat
  deriving DecidableEq

/-- Method `dial` (socks5.go, lines 41-69), the whole of it under `dialerMutex`. Calling
`DialContext` on a nil dialer panics. -/
def Socks5Proxy.dial (p : Socks5Proxy) (env : DialEnv) (label : Label) :
    Socks5Proxy × Result Conn :=
  let (p1, err) :=
    if p.createDialerOnce then (p, none)
    else ({ p with createDialerOnce := true, rtcDialer := env.NewDialer.1 }, env.NewDialer.2)
  match err with
  | some e => ({ p1 with createDialerOnce := false }, .error e)
  | none =>
    let ctx : Option Int := if p1.Timeout > 0 then some p1.Timeout else none
    match p1.rtcDialer with
    | none => (p1, .panic)
    | some d =>
      match env.DialContext d ctx label with
      | .error e => (p1, .error e)
      | .ok conn => (p1, .ok (conn.IdleKiller p1.Timeout))

/-- Method `connectOnce` (socks5.go, lines 96-129): the proxy afterwards, the tunnel
connection in its final state when the dial succeeded, and the returned values. -/
def Socks5Proxy.connectOnce (p : Socks5Proxy) (env : DialEnv) (dst : Addr) :
    Socks5Proxy × Option Conn × Result (Conn × Addr) :=
  match p.dial env ⟨dst.Network, dst.String, env.randSeq⟩ with
  | (p1, .error err) => (p1, none, .error err)
  | (p1, .panic) => (p1, none, .panic)
  | (p1, .ok conn) =>
    let req : Request := { Command := CONNECT, NetworkType := dst.Network, Address := dst.String }
    match req.WriteTo conn.writer with
    | (w1, _, some err) => (p1, some ({ conn with writer := w1 }).Close, .error err)
    | (w1, _, none) =>
      let conn := { conn with writer := w1 }
      let conn := conn.SetReadDeadline (some (env.now + 2 * second))
      match ReadResponse conn.reader with
      | .error err => (p1, some conn.Close, .error err)
      | .panic => (p1, some conn, .panic)
      | .ok resp =>
        let conn := conn.SetReadDeadline none
        if resp.Command ≠ CONNECT ∨ resp.NetworkType ≠ req.NetworkType then
          (p1, some conn.Close, .error .invalidResponse)
        else (p1, some conn, .ok (conn, ⟨resp.NetworkType, resp.Address⟩))

/-- The failure branch of `Connect` (socks5.go, lines 81-87), under `dialerMutex`: the
dialer and its once-guard are reset only if the dialer is still the one snapshotted. -/
def Socks5Proxy.invalidate (p : Socks5Proxy) (dialerCopy : Option Nat) : Socks5Proxy :=
  if dialerCopy = p.rtcDialer then { p with createDialerOnce := false, rtcDialer := none }
  else p

/-- Method `Connect` (socks5.go, lines 71-94), run by one caller for at most `fuel`
iterations of its `for` loop; iteration `i` meets the environment `envs i`. The result
is `none` when the loop is still running after `fuel` iterations. The random sleep
between iterations is not modelled. -/
def Socks5Proxy.Connect (dst : Addr) :
    Nat → (Nat → DialEnv) → Socks5Proxy → Socks5Proxy × Option (Result (Conn × Addr))
  | 0, _, p => (p, none)
  | fuel + 1, envs, p =>
    let dialerCopy := p.rtcDialer
    match p.connectOnce (envs 0) dst with
    | (p1, _, .error _) =>
      Socks5Proxy.Connect dst fuel (fun i => envs (i + 1)) (p1.invalidate dialerCopy)
    | (p1, _, r) => (p1, some r)

/-- What the other callers of the same proxy do to its shared fields around one
iteration of a caller's `Connect` loop, at the three places where that caller does not
hold `dialerMutex`: between its snapshot and its `dial`, between its `dial` and its
failure branch, and between its failure branch and its next snapshot. -/
structure Others where
  beforeDial : Socks5Proxy → Socks5Proxy
  beforeBranch : Socks5Proxy → Socks5Proxy
  afterBranch : Socks5Proxy → Socks5Proxy

/-- Method `Connect` (socks5.go, lines 71-94) run by one caller while other callers use
the same proxy: as `Socks5Proxy.Connect`, with `others i` acting on the shared proxy
around iteration `i`. -/
def Socks5Proxy.ConnectShared (dst : Addr) :
    Nat → (Nat → DialEnv) → (Nat → Others) → Socks5Proxy →
      Socks5Proxy × Option (Result (Conn × Addr))
  | 0, _, _, p => (p, none)
  | fuel + 1, envs, others, p =>
    let dialerCopy := p.rtcDialer
    match ((others 0).beforeDial p).connectOnce (envs 0) dst with
    | (p1, _, .error _) =>
      Socks5Proxy.ConnectShared dst fuel (fun i => envs (i + 1)) (fun i => others (i + 1))
        ((others 0).afterBranch (((others 0).beforeBranch p1).invalidate dialerCopy))
    | (p1, _, r) => (p1, some r)

/-- Other callers that do nothing. -/
def Others.idle : Others := { beforeDial := id, beforeBranch := id, afterBranch := id }

/-! ## `server.go`: the server listener -/

/-- An `int64` after an addition or subtraction, wrapped into its range. -/
def wrap64 (x : Int) : Int := (x + 2 ^ 63) % 2 ^ 64 - 2 ^ 63

/-- Struct `Server`: the value of the atomic counter `activeConnCnt`. -/
structure Server where
  activeConnCnt : Int
  deriving DecidableEq

/-- What the environment does for one `handleConnect`: the result of
`net.Dial(network, address)`, and the state in which `utils.FullPipe` leaves the two
connections once both directions have ended. -/
structure NetEnv where
  Dial : String → List Byte → Except Error Conn
  FullPipe : Conn → Conn → Conn × Conn
  now : Nat

/-- Method `handleConnect` (server.go, lines 90-114): the client connection afterwards,
and the outbound connection when the dial succeeded (closed by the deferred `Close`). -/
def Server.handleConnect (net : NetEnv) (clientConn : Conn) (req : Request) :
    Conn × Option Conn :=
  match net.Dial req.NetworkType req.Address with
  | .error _ => (clientConn, none)
  | .ok proxyTargetConn =>
    let resp : Response :=
      { Command := CONNECT, NetworkType := req.NetworkType, Address := proxyTargetConn.localAddr }
    match resp.WriteTo clientConn.writer with
    | (w1, _, some _) => ({ clientConn with writer := w1 }, some proxyTargetConn.Close)
    | (w1, _, none) =>
      let clientConn := { clientConn with writer := w1 }
      let clientConn := clientConn.SetDeadline (some (net.now + 15 * 60 * second))
      let proxyTargetConn := proxyTargetConn.SetDeadline (some (net.now + 15 * 60 * second))
      let (a, b) := net.FullPipe clientConn proxyTargetConn
      (a.Close, some b.Close.Close)

/-- Method `handleConn` (server.go, lines 60-88), run without interference from other
handlers, so that each `Load`/`CompareAndSwap` loop succeeds at its first round and
adds 1 to, or takes 1 from, the counter. The deferred `conn.Close()` runs on every
return; `none` is a panic. -/
def Server.handleConn (s : Server) (net : NetEnv) (conn : Conn) : Option (Server × Conn) :=
  match ReadRequest conn.reader with
  | .error _ => some (s, conn.Close)
  | .panic => none
  | .ok req =>
    let s1 : Server := { s with activeConnCnt := wrap64 (s.activeConnCnt + 1) }
    if req.Command = CONNECT then
      let conn1 := (Server.handleConnect net conn req).1
      some ({ s1 with activeConnCnt := wrap64 (s1.activeConnCnt - 1) }, conn1.Close)
    else some (s1, conn.Close)

/-- The Response `handleConnect` builds after a successful dial (server.go, lines
98-103). -/
def Server.connectResponse (req : Request) (proxyTargetConn : Conn) : Response :=
  { Command := CONNECT, NetworkType := req.NetworkType, Address := proxyTargetConn.localAddr }

/-! ## Concrete inputs used in the examples below -/

/-- A writer with nothing written yet, whose every `Write` succeeds in full. -/
def okWriter : Writer := { chunks := [], outcome := fun p => (p.length, none) }

/-- An open connection whose next `Read` delivers `data` and whose writes succeed. -/
def connReading (data : List Byte) : Conn :=
  { reader := { err := none, data := data, scratch := [] }
    writer := okWriter
    closed := false
    readDeadline := none
    deadline := none
    idleTimeout := none
    localAddr := ascii "10.0.0.2:40000" }

/-- A stand-in for HMAC-SHA256 in examples: the key followed by the message. -/
def exampleMac (key msg : List Byte) : List Byte := key ++ msg

/-- A destination `tcp`, `a:1`. -/
def exampleDst : Addr := { Network := "tcp", String := ascii "a:1" }

/-- Environments of two attempts: in attempt 0 the peer answers with the bytes BIND,
TCP (a Response whose command is not CONNECT); in every later attempt it answers
CONNECT, TCP, `b:2`. Creating a dialer and dialing always succeed. -/
def mismatchThenOk (i : Nat) : DialEnv :=
  { NewDialer := (some (i + 1), none)
    DialContext := fun _ _ _ =>
      .ok (connReading (if i = 0 then [BIND, TCP] else [CONNECT, TCP] ++ ascii "b:2"))
    randSeq := "abcde"
    now := 0 }

/-- A proxy that has not created its dialer yet. -/
def freshProxy : Socks5Proxy := { Timeout := 0, createDialerOnce := false, rtcDialer := none }

/-- A network environment in which the outbound dial fails. -/
def noNet : NetEnv :=
  { Dial := fun _ _ => .error (.transport "connection refused")
    FullPipe := fun a b => (a, b)
    now := 0 }

/-- An HTTP transport with no state that answers every request with `r`. -/
def replyingClient (r : HttpResponse) : HttpClient Unit :=
  { PostForm := fun _ _ n => ((some r, none), n)
    Get := fun _ n => ((some r, none), n) }

/-- A signal client of user 7 with the secret "s3cr3t". -/
def exampleClient : WebSignalClient :=
  { BaseURL := "example.com:8443", UserID := 7, Password := ascii "s3cr3t" }

/-- A signal server that knows user 7 with the secret "s3cr3t" and holds no offers. -/
def exampleServer : WebSignalServer :=
  { offerQueue := [], answerMap := fun _ => none, answerValidFor := 60 * second,
    passwords := [(7, ascii "s3cr3t")] }

/-- A well-formed offer form of user 7: the offer "hello" with its MAC under
`exampleMac`. -/
def exampleForm : OfferForm :=
  { offer := ToBase64 (ascii "hello")
    mac := ToBase64 (exampleMac (ascii "s3cr3t") (ascii "hello"))
    uid := "7" }

/-- A signal server with three answer entries, all owned by user 7: id 1 expires at
time 10 and is unanswered, id 2 expires at time 10 and carries an answer, id 3 expires
at time 30. -/
def sweepExampleServer : WebSignalServer :=
  { offerQueue := []
    answerMap := fun k =>
      if k = 1 then some ⟨10, 7, []⟩
      else if k = 2 then some ⟨10, 7, ascii "world"⟩
      else if k = 3 then some ⟨30, 7, []⟩
      else none
    answerValidFor := 60 * second
    passwords := [(7, ascii "s3cr3t")] }

/-- An HTTP transport with no state whose every request fails with the error `e` and
returns no response object, as `http.Client` does when the connection cannot be made. -/
def failingClient (e : Error) : HttpClient Unit :=
  { PostForm := fun _ _ n => ((none, some e), n)
    Get := fun _ n => ((none, some e), n) }

/-- An environment in which creating a dialer succeeds and every `DialContext` fails. -/
def dialFails : DialEnv :=
  { NewDialer := (some 1, none)
    DialContext := fun _ _ _ => .error (.transport "dial timeout")
    randSeq := "abcde"
    now := 0 }

/-- Other callers that, while this caller's attempt is under way, replace the shared
dialer by the instance 2. -/
def replacedBy2 : Others :=
  { beforeDial := id
    beforeBranch := fun p => { p with createDialerOnce := true, rtcDialer := some 2 }
    afterBranch := id }

/-- An environment in which the dial succeeds and the tunnel delivers the Response
CONNECT, TCP, "10.0.0.2:40000". -/
def handshakeEnv : DialEnv :=
  { NewDialer := (some 1, none)
    DialContext := fun _ _ _ => .ok (connReading (CONNECT :: TCP :: ascii "10.0.0.2:40000"))
    randSeq := "abcde"
    now := 0 }

/-- A network environment in which the outbound dial succeeds, with the local address
"10.0.0.2:40000", and the relay leaves both connections as they were. -/
def okNet : NetEnv :=
  { Dial := fun _ _ => .ok (connReading [])
    FullPipe := fun a b => (a, b)
    now := 0 }

/-! # Theorems -/

/-! ## Wire codec -/

theorem read_fill (N : Nat) (data scratch : List Byte) (h : data.length ≤ N) :
    (Reader.mk none data scratch).Read (List.replicate N (0 : Byte))
      = (data ++ (scratch.take (N - data.length)
          ++ List.replicate (N - data.length - scratch.length) 0), data.length, none) := by
  simp [Reader.Read, List.take_of_length_le h, Nat.min_eq_left h]

theorem buf_get0 (scratch : List Byte) (k : Nat) (hk : 0 < k) :
    (scratch.take k ++ List.replicate (k - scratch.length) (0 : Byte))[0]? = some (scratch.getD 0 0) := by
  match scratch with
  | [] => simp [List.getElem?_replicate, hk]
  | s0 :: tl =>
    obtain ⟨m, rfl⟩ : ∃ m, k = m + 1 := ⟨k - 1, by omega⟩
    simp

theorem buf_get1 (scratch : List Byte) (k : Nat) (hk : 1 < k) :
    (scratch.take k ++ List.replicate (k - scratch.length) (0 : Byte))[1]? = some (scratch.getD 1 0) := by
  match scratch with
  | [] => simp [List.getElem?_replicate, hk]
  | [s0] =>
    obtain ⟨m, rfl⟩ : ∃ m, k = m + 2 := ⟨k - 2, by omega⟩
    simp [List.getElem?_replicate]
  | s0 :: s1 :: tl =>
    obtain ⟨m, rfl⟩ : ∃ m, k = m + 2 := ⟨k - 2, by omega⟩
    simp

/-- What `ReadRequest` returns on one successful read of at most 1024 bytes, by the
shape of the bytes read. A read of fewer than two bytes finds in the buffer, in place
of the missing bytes, what the reader left there (zero where it left nothing), and
panics at `buf[2:n]` when these look like a command and an address type. -/
theorem ReadRequest_eq (data scratch : List Byte) : data.length ≤ 1024 →
    ReadRequest ⟨none, data, scratch⟩ =
      match data with
      | [] =>
        if scratch.getD 0 0 ≠ CONNECT ∧ scratch.getD 0 0 ≠ BIND ∧ scratch.getD 0 0 ≠ UDP then
          .error (.invalidCommand (scratch.getD 0 0))
        else match netName (scratch.getD 1 0) with
          | none => .error .ErrConnNotAllowed
          | some _ => .panic
      | [a] =>
        if a ≠ CONNECT ∧ a ≠ BIND ∧ a ≠ UDP then .error (.invalidCommand a)
        else match netName (scratch.getD 0 0) with
          | none => .error .ErrConnNotAllowed
          | some _ => .panic
      | a :: b :: rest =>
        if a ≠ CONNECT ∧ a ≠ BIND ∧ a ≠ UDP then .error (.invalidCommand a)
        else match netName b with
          | none => .error .ErrConnNotAllowed
          | some nt => .ok { Command := a, NetworkType := nt, Address := rest } := by
  intro h
  unfold ReadRequest
  dsimp only
  rw [read_fill 1024 data scratch h]
  obtain ⟨k, hk⟩ : ∃ k, k = 1024 - data.length := ⟨_, rfl⟩
  rw [← hk]
  match data, h, hk with
  | [], _, hk =>
    have hk1 : 1 < k := by simp at hk; omega
    simp only [List.nil_append]
    rw [buf_get0 scratch k (by omega)]
    dsimp only
    split_ifs with hc
    · rfl
    · rw [buf_get1 scratch k hk1]
      dsimp only
      cases netName (scratch.getD 1 0) with
      | none => rfl
      | some nt => simp [slice]
  | [a], _, hk =>
    have hk1 : 0 < k := by simp at hk; omega
    simp only [List.singleton_append, List.getElem?_cons_zero, List.getElem?_cons_succ]
    split_ifs with hc
    · rfl
    · rw [buf_get0 scratch k hk1]
      dsimp only
      cases netName (scratch.getD 0 0) with
      | none => rfl
      | some nt => simp [slice]
  | a :: b :: rest, h, hk =>
    simp only [List.cons_append, List.getElem?_cons_zero, List.getElem?_cons_succ]
    split_ifs with hc
    · rfl
    · cases netName b with
      | none => rfl
      | some nt =>
        simp [slice]

theorem netByte_cases (s : String) :
    (s = "tcp" → netByte s = some 3) ∧ (s = "tcp4" → netByte s = some 1)
      ∧ (s = "tcp6" → netByte s = some 4)
      ∧ (s ≠ "tcp" → s ≠ "tcp4" → s ≠ "tcp6" → netByte s = none) := by
  refine ⟨?_, ?_, ?_, ?_⟩
  · rintro rfl; decide
  · rintro rfl; decide
  · rintro rfl; decide
  · intro h1 h2 h3; simp [netByte, h1, h2, h3]

theorem netName_netByte (s : String) (t : Byte) (h : netByte s = some t) :
    netName t = some s := by
  unfold netByte at h
  split_ifs at h with h1 h2 h3 <;> simp at h <;> subst h <;> subst_vars <;> decide

/-- C1: codec round trip. For every Request whose Command is CONNECT, BIND or
UDP_ASSOCIATE, whose NetworkType is "tcp", "tcp4" or "tcp6" and whose Address has at
most 1021 bytes, `WriteTo` issues one `Write` call, and `ReadRequest` on a reader that
delivers the bytes of that call in a single read returns the same Request, without
error, whatever the reader leaves in the rest of the buffer. -/
theorem ReadRequest_WriteTo_roundtrip (r : Request) (w : Writer)
    (hc : r.Command = CONNECT ∨ r.Command = BIND ∨ r.Command = UDP)
    (hn : r.NetworkType = "tcp" ∨ r.NetworkType = "tcp4" ∨ r.NetworkType = "tcp6")
    (hl : r.Address.length ≤ 1021) :
    ∃ bytes, (r.WriteTo w).1.chunks = w.chunks ++ [bytes]
      ∧ ∀ scratch, ReadRequest ⟨none, bytes, scratch⟩ = .ok r := by
  obtain ⟨t, ht⟩ : ∃ t, netByte r.NetworkType = some t := by
    rcases hn with h | h | h <;> rw [h] <;> exact ⟨_, rfl⟩
  refine ⟨r.Command :: t :: r.Address, ?_, ?_⟩
  · simp [Request.WriteTo, ht, Writer.Write]
  · intro scratch
    rw [ReadRequest_eq _ scratch (by simp; omega)]
    have hcmd : ¬ (r.Command ≠ CONNECT ∧ r.Command ≠ BIND ∧ r.Command ≠ UDP) := by
      rcases hc with h | h | h <;> simp [h]
    simp only [hcmd, if_false, netName_netByte _ _ ht]

/-- Witness of C1: the Request CONNECT, "tcp", "a:1" written to an empty writer. -/
theorem ReadRequest_WriteTo_roundtrip_witness :
    ∃ bytes,
      ((⟨CONNECT, "tcp", ascii "a:1"⟩ : Request).WriteTo ⟨[], fun p => (p.length, none)⟩).1.chunks
          = [] ++ [bytes]
        ∧ ∀ scratch, ReadRequest ⟨none, bytes, scratch⟩ = .ok ⟨CONNECT, "tcp", ascii "a:1"⟩ :=
  ReadRequest_WriteTo_roundtrip ⟨CONNECT, "tcp", ascii "a:1"⟩ ⟨[], fun p => (p.length, none)⟩
    (Or.inl rfl) (Or.inl rfl) (by decide)

theorem netName_cases (t : Byte) :
    (t = TCP → netName t = some "tcp") ∧ (t = TCP4 → netName t = some "tcp4")
      ∧ (t = TCP6 → netName t = some "tcp6")
      ∧ (t ≠ TCP → t ≠ TCP4 → t ≠ TCP6 → netName t = none) := by
  refine ⟨?_, ?_, ?_, ?_⟩
  · rintro rfl; decide
  · rintro rfl; decide
  · rintro rfl; decide
  · intro h1 h2 h3; simp [netName, h1, h2, h3]

/-- The classification `ReadRequest` makes of one successful read of at most 1024
bytes, when the read delivers at least two bytes or the reader leaves the rest of the
buffer untouched. It does not panic. When the first byte is missing or is none of
CONNECT, BIND, UDP it fails with the invalid-command error; otherwise, when the
second byte is missing or is none of TCP, TCP4, TCP6 it fails with
`socks5.ErrConnNotAllowed`; otherwise it succeeds with Command = first byte,
NetworkType = "tcp", "tcp4" or "tcp6" for TCP, TCP4, TCP6, and Address = all bytes
after the second. -/
theorem ReadRequest_classifies_clean (data scratch : List Byte) (hlen : data.length ≤ 1024)
    (htail : 2 ≤ data.length ∨ scratch = []) :
    ReadRequest ⟨none, data, scratch⟩ ≠ .panic
    ∧ ((∀ c, data[0]? = some c → c ≠ CONNECT ∧ c ≠ BIND ∧ c ≠ UDP) →
        ReadRequest ⟨none, data, scratch⟩ = .error (.invalidCommand (data.headD 0)))
    ∧ (∀ c, data[0]? = some c → (c = CONNECT ∨ c = BIND ∨ c = UDP) →
        ((∀ t, data[1]? = some t → t ≠ TCP ∧ t ≠ TCP4 ∧ t ≠ TCP6) →
          ReadRequest ⟨none, data, scratch⟩ = .error .ErrConnNotAllowed)
        ∧ (∀ t, data[1]? = some t →
            (t = TCP → ReadRequest ⟨none, data, scratch⟩ = .ok ⟨c, "tcp", data.drop 2⟩)
            ∧ (t = TCP4 → ReadRequest ⟨none, data, scratch⟩ = .ok ⟨c, "tcp4", data.drop 2⟩)
            ∧ (t = TCP6 → ReadRequest ⟨none, data, scratch⟩ = .ok ⟨c, "tcp6", data.drop 2⟩))) := by
  rw [ReadRequest_eq data scratch hlen]
  have h0 : netName 0 = none := by decide
  match data, htail with
  | [], htail =>
    have hs : scratch = [] := by
      rcases htail with h | h
      · simp at h
      · exact h
    subst hs
    simp [CONNECT, BIND, UDP]
  | [a], htail =>
    have hs : scratch = [] := by
      rcases htail with h | h
      · simp at h
      · exact h
    subst hs
    dsimp only
    simp only [List.getD_nil, h0]
    refine ⟨by split_ifs <;> simp, ?_, ?_⟩
    · intro h
      have := h a (by simp)
      simp [this]
    · intro c hc hk
      simp at hc
      subst hc
      have : ¬ (a ≠ CONNECT ∧ a ≠ BIND ∧ a ≠ UDP) := by
        rcases hk with h | h | h <;> simp [h]
      simp [this]
  | a :: b :: rest, _ =>
    obtain ⟨h1, h2, h3, h4⟩ := netName_cases b
    dsimp only
    refine ⟨?_, ?_, ?_⟩
    · split_ifs
      · simp
      · cases netName b <;> simp
    · intro h
      have := h a (by simp)
      simp [this]
    · intro c hc hk
      simp at hc
      subst hc
      have hcmd : ¬ (a ≠ CONNECT ∧ a ≠ BIND ∧ a ≠ UDP) := by
        rcases hk with h | h | h <;> simp [h]
      simp only [hcmd, if_false]
      refine ⟨?_, ?_⟩
      · intro h
        obtain ⟨n1, n2, n3⟩ := h b (by simp)
        rw [h4 n1 n2 n3]
      · intro t ht
        simp at ht
        subst ht
        refine ⟨fun e => ?_, fun e => ?_, fun e => ?_⟩
        · rw [h1 e]; rfl
        · rw [h2 e]; rfl
        · rw [h3 e]; rfl

/-- C2 (the code breaks the claim): `ReadRequest` never compares the number of bytes
read with 2. A read that delivers the single byte CONNECT, from a reader that has
used the buffer as scratch space and left the byte TCP after it, passes both checks
on `buf[0]` and `buf[1]` and panics at the slice `buf[2:1]`; so does a read that
delivers no byte and leaves CONNECT, TCP in the buffer. In general a read of one
byte holding a known command panics whenever the byte left after it is a known
address type, and a read of no byte panics whenever the two bytes left in the buffer
are a known command and a known address type: such reads are not rejected with an
error. -/
theorem ReadRequest_short_read_panics :
    ReadRequest ⟨none, [CONNECT], [TCP]⟩ = .panic
    ∧ ReadRequest ⟨none, [], [CONNECT, TCP]⟩ = .panic
    ∧ (∀ (c t : Byte) (tail : List Byte), (c = CONNECT ∨ c = BIND ∨ c = UDP) →
        (t = TCP ∨ t = TCP4 ∨ t = TCP6) →
        ReadRequest ⟨none, [c], t :: tail⟩ = .panic
        ∧ ReadRequest ⟨none, [], c :: t :: tail⟩ = .panic) := by
  have hgen : ∀ (c t : Byte) (tail : List Byte), (c = CONNECT ∨ c = BIND ∨ c = UDP) →
      (t = TCP ∨ t = TCP4 ∨ t = TCP6) →
      ReadRequest ⟨none, [c], t :: tail⟩ = .panic
      ∧ ReadRequest ⟨none, [], c :: t :: tail⟩ = .panic := by
    intro c t tail hc ht
    have hcmd : ¬ (c ≠ CONNECT ∧ c ≠ BIND ∧ c ≠ UDP) := by
      rcases hc with h | h | h <;> simp [h]
    obtain ⟨nt, hnt⟩ : ∃ nt, netName t = some nt := by
      rcases ht with h | h | h <;> rw [h] <;> exact ⟨_, rfl⟩
    refine ⟨?_, ?_⟩
    · rw [ReadRequest_eq _ _ (by simp)]
      simp only [List.getD_cons_zero, hcmd, if_false, hnt]
    · rw [ReadRequest_eq _ _ (by simp)]
      simp only [List.getD_cons_zero, List.getD_cons_succ, hcmd, if_false, hnt]
  exact ⟨(hgen CONNECT TCP [] (Or.inl rfl) (Or.inl rfl)).1,
    (hgen CONNECT TCP [] (Or.inl rfl) (Or.inl rfl)).2, hgen⟩

/-- C3: wire format of `WriteTo`. For NetworkType "tcp", "tcp4", "tcp6" it makes
exactly one `Write` call whose argument is the command byte, then the address-type
byte (0x03, 0x01, 0x04 respectively), then the raw address bytes, so 2 + len(Address)
bytes, and returns what that call returned; the Request CONNECT, "tcp",
"93.184.216.34:80" is written as 0x01, 0x03 and the ASCII bytes of the address. For
any other NetworkType it makes no `Write` call and returns
`socks5.ErrNetworkUnreachable`. -/
theorem WriteTo_wire_format (r : Request) (w : Writer) :
    (∀ t : Byte,
        (r.NetworkType = "tcp" ∧ t = 0x03) ∨ (r.NetworkType = "tcp4" ∧ t = 0x01)
          ∨ (r.NetworkType = "tcp6" ∧ t = 0x04) →
        (r.WriteTo w).1.chunks = w.chunks ++ [r.Command :: t :: r.Address]
        ∧ (r.Command :: t :: r.Address).length = 2 + r.Address.length
        ∧ (r.WriteTo w).2 =
            (((w.outcome (r.Command :: t :: r.Address)).1 : Int),
              (w.outcome (r.Command :: t :: r.Address)).2))
    ∧ ((⟨CONNECT, "tcp", ascii "93.184.216.34:80"⟩ : Request).WriteTo w).1.chunks
        = w.chunks ++ [[0x01, 0x03, 0x39, 0x33, 0x2e, 0x31, 0x38, 0x34, 0x2e, 0x32, 0x31,
            0x36, 0x2e, 0x33, 0x34, 0x3a, 0x38, 0x30]]
    ∧ (r.NetworkType ≠ "tcp" → r.NetworkType ≠ "tcp4" → r.NetworkType ≠ "tcp6" →
        r.WriteTo w = (w, 0, some .ErrNetworkUnreachable)) := by
  obtain ⟨h1, h2, h3, h4⟩ := netByte_cases r.NetworkType
  refine ⟨?_, ?_, ?_⟩
  · intro t ht
    have hb : netByte r.NetworkType = some t := by
      rcases ht with ⟨h, rfl⟩ | ⟨h, rfl⟩ | ⟨h, rfl⟩
      · exact h1 h
      · exact h2 h
      · exact h3 h
    refine ⟨?_, ?_, ?_⟩
    · simp [Request.WriteTo, hb, Writer.Write]
    · simp; omega
    · simp [Request.WriteTo, hb, Writer.Write]
  · have hb : netByte "tcp" = some 3 := by decide
    simp only [Request.WriteTo, hb, Writer.Write]
    congr 1
  · intro n1 n2 n3
    simp [Request.WriteTo, h4 n1 n2 n3]

/-! ## Text codecs -/

theorem b64Index_b64Char_fin : ∀ s : Fin 64, b64Index (b64Char s.val) = some s.val := by
  decide

theorem b64Char_plain_fin : ∀ s : Fin 64,
    b64Char s.val ≠ '\n' ∧ b64Char s.val ≠ '\r' ∧ b64Char s.val ≠ '=' := by
  decide

theorem hexVal_hexDigitChar_fin : ∀ d : Fin 16, hexVal (hexDigitChar d.val) = some d.val := by
  decide

theorem b64Index_b64Char (s : Nat) (h : s < 64) : b64Index (b64Char s) = some s :=
  b64Index_b64Char_fin ⟨s, h⟩

theorem b64Index_pad : b64Index '=' = none := by decide

theorem b64DecodeGroups_b64Encode : ∀ (n : Nat) (x : List Byte), x.length ≤ n →
    b64DecodeGroups (b64Encode x) = some x := by
  intro n
  induction n using Nat.strong_induction_on with
  | _ n ih =>
    intro x hx
    match x, hx with
    | [], _ => rfl
    | [a], _ =>
      have ha := a.isLt
      simp only [b64Encode, b64DecodeGroups]
      rw [b64Index_b64Char _ (by omega), b64Index_b64Char _ (by omega), b64Index_pad]
      simp only [toByte, and_self, if_true]
      congr 2
      apply Fin.ext
      simp only
      omega
    | [a, b], _ =>
      have ha := a.isLt
      have hb := b.isLt
      simp only [b64Encode, b64DecodeGroups]
      rw [b64Index_b64Char _ (by omega), b64Index_b64Char _ (by omega),
        b64Index_b64Char _ (by omega), b64Index_pad]
      simp only [toByte, and_self, if_true]
      congr 2
      · apply Fin.ext
        simp only
        omega
      · congr 1
        apply Fin.ext
        simp only
        omega
    | a :: b :: c :: rest, hx =>
      have ha := a.isLt
      have hb := b.isLt
      have hc := c.isLt
      simp only [b64Encode, b64DecodeGroups]
      rw [b64Index_b64Char _ (by omega), b64Index_b64Char _ (by omega),
        b64Index_b64Char _ (by omega), b64Index_b64Char _ (by omega)]
      have hr : rest.length ≤ n - 3 := by simp at hx; omega
      rw [ih (n - 3) (by simp at hx; omega) rest hr]
      simp only [toByte]
      congr 2
      · apply Fin.ext
        simp only
        omega
      · congr 1
        · apply Fin.ext
          simp only
          omega
        · congr 1
          apply Fin.ext
          simp only
          omega
theorem b64Encode_plain : ∀ (n : Nat) (x : List Byte), x.length ≤ n →
    ∀ ch ∈ b64Encode x, ch ≠ '\n' ∧ ch ≠ '\r' := by
  have hpad : ('=' : Char) ≠ '\n' ∧ ('=' : Char) ≠ '\r' := by decide
  have hch : ∀ s, s < 64 → b64Char s ≠ '\n' ∧ b64Char s ≠ '\r' := fun s h =>
    ⟨(b64Char_plain_fin ⟨s, h⟩).1, (b64Char_plain_fin ⟨s, h⟩).2.1⟩
  intro n
  induction n using Nat.strong_induction_on with
  | _ n ih =>
    intro x hx ch hmem
    match x, hx with
    | [], _ => simp [b64Encode] at hmem
    | [a], _ =>
      have ha := a.isLt
      simp only [b64Encode, List.mem_cons, List.mem_nil_iff, or_false] at hmem
      rcases hmem with rfl | rfl | rfl | rfl
      · exact hch _ (by omega)
      · exact hch _ (by omega)
      · exact hpad
      · exact hpad
    | [a, b], _ =>
      have ha := a.isLt
      have hb := b.isLt
      simp only [b64Encode, List.mem_cons, List.mem_nil_iff, or_false] at hmem
      rcases hmem with rfl | rfl | rfl | rfl
      · exact hch _ (by omega)
      · exact hch _ (by omega)
      · exact hch _ (by omega)
      · exact hpad
    | a :: b :: c :: rest, hx =>
      have ha := a.isLt
      have hb := b.isLt
      have hc := c.isLt
      simp only [b64Encode, List.mem_cons] at hmem
      rcases hmem with rfl | rfl | rfl | rfl | hmem
      · exact hch _ (by omega)
      · exact hch _ (by omega)
      · exact hch _ (by omega)
      · exact hch _ (by omega)
      · exact ih (n - 3) (by simp at hx; omega) rest (by simp at hx; omega) ch hmem

/-- Function `FromBase64` undoes `ToBase64`. -/
theorem FromBase64_ToBase64 (x : List Byte) : FromBase64 (ToBase64 x) = .ok x := by
  have hf : (b64Encode x).filter (fun c => c ≠ '\n' ∧ c ≠ '\r') = b64Encode x := by
    rw [List.filter_eq_self]
    intro ch hmem
    have := b64Encode_plain x.length x le_rfl ch hmem
    simp [this.1, this.2]
  simp only [FromBase64, ToBase64, b64Decode, hf,
    b64DecodeGroups_b64Encode x.length x le_rfl]

theorem hexVal_hexDigitChar (d : Nat) (h : d < 16) : hexVal (hexDigitChar d) = some d :=
  hexVal_hexDigitChar_fin ⟨d, h⟩

theorem hexDigits_lt (fuel n : Nat) : ∀ d ∈ hexDigits fuel n, d < 16 := by
  induction fuel generalizing n with
  | zero => simp [hexDigits]
  | succ k ih =>
    intro d hd
    rw [hexDigits] at hd
    split_ifs at hd with h0
    · simp at hd; omega
    · simp only [List.mem_append, List.mem_singleton] at hd
      rcases hd with hd | rfl
      · exact ih _ d hd
      · omega

theorem hexDigits_value (fuel : Nat) : ∀ n, n < 16 ^ fuel →
    (hexDigits fuel n).foldl (fun a d => a * 16 + d) 0 = n := by
  induction fuel with
  | zero => intro n hn; simp at hn; subst hn; rfl
  | succ k ih =>
    intro n hn
    rw [hexDigits]
    split_ifs with h0
    · simp; omega
    · rw [List.foldl_append, ih (n / 16) (by rw [pow_succ] at hn; omega)]
      simp; omega

theorem foldl_hex_le (ds : List Nat) : ∀ acc, acc ≤ ds.foldl (fun a d => a * 16 + d) acc := by
  induction ds with
  | nil => intro acc; simp
  | cons d ds ih =>
    intro acc
    simp only [List.foldl_cons]
    have := ih (acc * 16 + d)
    omega

theorem parseHexDigits_map (ds : List Nat) : ∀ acc, (∀ d ∈ ds, d < 16) →
    ds.foldl (fun a d => a * 16 + d) acc < 2 ^ 64 →
    parseHexDigits (ds.map hexDigitChar) acc = .ok (ds.foldl (fun a d => a * 16 + d) acc) := by
  induction ds with
  | nil => intro acc _ _; rfl
  | cons d ds ih =>
    intro acc hd hv
    simp only [List.map_cons, parseHexDigits, List.foldl_cons] at hv ⊢
    rw [hexVal_hexDigitChar d (hd d (by simp))]
    have hle := foldl_hex_le ds (acc * 16 + d)
    have hlt : acc * 16 + d < 2 ^ 64 := lt_of_le_of_lt hle hv
    simp only [hlt, if_true]
    exact ih _ (fun x hx => hd x (by simp [hx])) hv

/-- Parsing `strconv.ParseUint(s, 16, 64)` undoes `fmt.Sprintf("%x", u)` on every
uint64. -/
theorem ParseUint16_formatHex (u : Nat) (h : u < 2 ^ 64) : ParseUint16 (formatHex u) = .ok u := by
  have hv := hexDigits_value 16 u (by norm_num at h ⊢; exact h)
  have hne : (hexDigits 16 u).map hexDigitChar ≠ [] := by
    rw [hexDigits]
    split_ifs <;> simp
  have hp := parseHexDigits_map (hexDigits 16 u) 0 (hexDigits_lt 16 u) (by rw [hv]; exact h)
  rw [hv] at hp
  simp only [ParseUint16, formatHex, hne, if_false, hp]
/-! ## Signal server -/

/-- C7: server-side `Answer(id, payload)`. If the answer map has no entry for `id`,
`Answer` returns the offer-not-found error and the server is unchanged. Otherwise it
returns no error, the entry for `id` carries the payload with its expiry and owner
uid unchanged, every other entry of the map is unchanged, and so are the offer queue
and the credential table. -/
theorem Answer_spec (wss : WebSignalServer) (id : Nat) (payload : List Byte) :
    (wss.answerMap id = none →
      wss.Answer id payload = (wss, some (.errorf "offer ID not found" [])))
    ∧ (∀ a, wss.answerMap id = some a →
        (wss.Answer id payload).2 = none
        ∧ (wss.Answer id payload).1.answerMap id
            = some { Expiry := a.Expiry, OwnerUID := a.OwnerUID, Answer := payload }
        ∧ (∀ k, k ≠ id → (wss.Answer id payload).1.answerMap k = wss.answerMap k)
        ∧ (wss.Answer id payload).1.offerQueue = wss.offerQueue
        ∧ (wss.Answer id payload).1.passwords = wss.passwords
        ∧ (wss.Answer id payload).1.answerValidFor = wss.answerValidFor) := by
  refine ⟨?_, ?_⟩
  · intro h
    simp [WebSignalServer.Answer, h]
  · intro a h
    have hA : wss.Answer id payload
        = (WebSignalServer.mk wss.offerQueue
            (Function.update wss.answerMap id (some (WebAnswer.mk a.Expiry a.OwnerUID payload)))
            wss.answerValidFor wss.passwords, none) := by
      simp [WebSignalServer.Answer, h]
    rw [hA]
    refine ⟨rfl, ?_, ?_, rfl, rfl, rfl⟩
    · simp
    · intro k hk
      simp [Function.update_noteq hk]

/-- C5: uniform rejection in `offerHandler`. If the offer or the mac field is not valid
base64, or the uid is no hexadecimal uint64, or the uid is not in the credential
table, or the MAC differs from HMAC-SHA256(secret of uid, offer), then the handler
calls the anti-probing responder and leaves the server as it was: no offer is
enqueued and no answer entry is created. The outcome is the same value for every
one of these causes. -/
theorem offerHandler_rejects_uniformly (hmac : List Byte → List Byte → List Byte)
    (wss : WebSignalServer) (c : OfferForm) (rnd now : Nat)
    (h : (∃ e, FromBase64 c.offer = .error e) ∨ (∃ e, FromBase64 c.mac = .error e)
      ∨ (∃ e, ParseUint16 c.uid = .error e)
      ∨ (∃ uid, ParseUint16 c.uid = .ok uid ∧ wss.passwords.lookup uid = none)
      ∨ (∃ uid offer mac secret, ParseUint16 c.uid = .ok uid ∧ FromBase64 c.offer = .ok offer
          ∧ FromBase64 c.mac = .ok mac ∧ wss.passwords.lookup uid = some secret
          ∧ mac ≠ hmac secret offer)) :
    wss.offerHandler hmac c rnd now = (wss, .antiProbing) := by
  unfold WebSignalServer.offerHandler
  rcases h with ⟨e, h⟩ | ⟨e, h⟩ | ⟨e, h⟩ | ⟨uid, h1, h2⟩ | ⟨uid, offer, mac, secret, h1, h2, h3, h4, h5⟩
  · simp [h]
  · cases FromBase64 c.offer <;> simp [h]
  · cases FromBase64 c.offer <;> cases FromBase64 c.mac <;> simp [h]
  · cases FromBase64 c.offer <;> cases FromBase64 c.mac <;> simp [h1, h2]
  · simp [h1, h2, h3, h4, Ne.symm h5]

/-- Witness of C5: on a server that knows uid 7 with secret "s3cr3t", an offer whose MAC
was computed under the secret "wrong" and an offer from the unknown uid 8 are both
answered by the anti-probing responder, with the server unchanged. -/
theorem offerHandler_rejects_uniformly_witness :
    (WebSignalServer.mk [] (fun _ => none) (60 * second) [(7, ascii "s3cr3t")]).offerHandler
        exampleMac ⟨ToBase64 (ascii "hello"), ToBase64 (exampleMac (ascii "wrong") (ascii "hello")),
          "7"⟩ 5 0
      = (WebSignalServer.mk [] (fun _ => none) (60 * second) [(7, ascii "s3cr3t")], .antiProbing)
    ∧ (WebSignalServer.mk [] (fun _ => none) (60 * second) [(7, ascii "s3cr3t")]).offerHandler
        exampleMac ⟨ToBase64 (ascii "hello"), ToBase64 (exampleMac (ascii "s3cr3t") (ascii "hello")),
          "8"⟩ 5 0
      = (WebSignalServer.mk [] (fun _ => none) (60 * second) [(7, ascii "s3cr3t")], .antiProbing) :=
  ⟨offerHandler_rejects_uniformly exampleMac _ _ 5 0
      (Or.inr (Or.inr (Or.inr (Or.inr
        ⟨7, ascii "hello", exampleMac (ascii "wrong") (ascii "hello"), ascii "s3cr3t",
          by decide, by decide, by decide, by decide, by decide⟩)))),
    offerHandler_rejects_uniformly exampleMac _ _ 5 0
      (Or.inr (Or.inr (Or.inr (Or.inl ⟨8, by decide, by decide⟩))))⟩

/-- Every error of `ParseUint16` names `ParseUint` and carries the string given. -/
theorem ParseUint16_error (s : String) (e : NumError) (h : ParseUint16 s = .error e) :
    e.Func = "ParseUint" ∧ e.Num = s := by
  unfold ParseUint16 at h
  split_ifs at h with h0
  · simp only [Except.error.injEq] at h
    subst h
    exact ⟨rfl, rfl⟩
  · cases hp : parseHexDigits s.data 0 with
    | error kind =>
      rw [hp] at h
      simp only [Except.error.injEq] at h
      subst h
      exact ⟨rfl, rfl⟩
    | ok n => rw [hp] at h; simp at h

theorem ParseUint16_ne_empty (s : String) (n : Nat) (h : ParseUint16 s = .ok n) : s ≠ "" := by
  rintro rfl
  simp [ParseUint16] at h

/-- The server after `offerHandler` accepted an offer: the offer is at the end of the
queue and the answer map holds an empty answer for the new id, owned by the uid of
the form. -/
theorem offerHandler_accepted (hmac : List Byte → List Byte → List Byte)
    (wss : WebSignalServer) (c : OfferForm) (X now U : Nat) (obj : JObject)
    (hacc : (wss.offerHandler hmac c X now).2 = .json 200 obj)
    (hU : ParseUint16 c.uid = .ok U) :
    ∃ offer, FromBase64 c.offer = .ok offer
      ∧ (wss.offerHandler hmac c X now).1
        = WebSignalServer.mk (wss.offerQueue ++ [receivedOffer.mk X offer])
            (Function.update wss.answerMap X
              (some (WebAnswer.mk (now + wss.answerValidFor) U [])))
            wss.answerValidFor wss.passwords := by
  unfold WebSignalServer.offerHandler at hacc ⊢
  rw [hU] at hacc ⊢
  dsimp only at hacc ⊢
  cases ho : FromBase64 c.offer with
  | error e => rw [ho] at hacc; simp at hacc
  | ok offer =>
    rw [ho] at hacc
    dsimp only at hacc ⊢
    cases hm : FromBase64 c.mac with
    | error e => rw [hm] at hacc; simp at hacc
    | ok mac =>
      rw [hm] at hacc
      dsimp only at hacc ⊢
      cases hp : wss.passwords.lookup U with
      | none => rw [hp] at hacc; simp at hacc
      | some password =>
        rw [hp] at hacc
        dsimp only at hacc ⊢
        by_cases hmac_ok : hmac password offer = mac
        · refine ⟨offer, rfl, ?_⟩
          simp [hmac_ok]
        · simp [hmac_ok] at hacc

theorem answerHandler_pending (wss : WebSignalServer) (q : AnswerQuery) (X U : Nat) (a : WebAnswer)
    (hq1 : ParseUint16 q.oid = .ok X) (hq2 : ParseUint16 q.uid = .ok U)
    (ha : wss.answerMap X = some a) (ho : a.OwnerUID = U) (he : a.Answer = []) :
    wss.answerHandler q = (wss, .json 200 [("status", .str "pending")]) := by
  have h1 := ParseUint16_ne_empty _ _ hq1
  have h2 := ParseUint16_ne_empty _ _ hq2
  simp [WebSignalServer.answerHandler, h1, h2, hq1, hq2, ha, ho, he]

theorem answerHandler_success (wss : WebSignalServer) (q : AnswerQuery) (X U : Nat) (a : WebAnswer)
    (hq1 : ParseUint16 q.oid = .ok X) (hq2 : ParseUint16 q.uid = .ok U)
    (ha : wss.answerMap X = some a) (ho : a.OwnerUID = U) (he : a.Answer ≠ []) :
    wss.answerHandler q
      = (WebSignalServer.mk wss.offerQueue (Function.update wss.answerMap X none)
            wss.answerValidFor wss.passwords,
          .json 200 [("status", .str "success"), ("answer", .str (ToBase64 a.Answer))]) := by
  have h1 := ParseUint16_ne_empty _ _ hq1
  have h2 := ParseUint16_ne_empty _ _ hq2
  simp [WebSignalServer.answerHandler, h1, h2, hq1, hq2, ha, ho, he]

theorem answerHandler_absent (wss : WebSignalServer) (q : AnswerQuery) (X : Nat)
    (hq1 : ParseUint16 q.oid = .ok X) (ha : wss.answerMap X = none) :
    wss.answerHandler q = (wss, .antiProbing) := by
  unfold WebSignalServer.answerHandler
  dsimp only
  split_ifs
  · rfl
  · rfl
  · rw [hq1]
    dsimp only
    cases ParseUint16 q.uid with
    | error e => rfl
    | ok u => simp [ha]

theorem pollAnswer_fixed (wss : WebSignalServer) (q : AnswerQuery) (out : HandlerOutcome)
    (h : wss.answerHandler q = (wss, out)) (n : Nat) :
    wss.pollAnswer q n = (wss, List.replicate n out) := by
  induction n with
  | zero => rfl
  | succ k ih =>
    rw [WebSignalServer.pollAnswer]
    simp only [h, ih, List.replicate_succ]

/-- C4 (amended): answer lifecycle on the signal server, for a non-empty payload. After
`offerHandler` accepted an offer with id X for the owner uid U, every `answerHandler`
call for X and U made before `Answer(X, payload)` replies {status: "pending"} and
leaves the server unchanged, however many are made. `Answer(X, payload)` with a
non-empty payload then succeeds; the next `answerHandler` call for X and U replies
{status: "success"} with the base64 of the payload and removes the entry; every
further `answerHandler` call for X, from any uid, calls the anti-probing responder and
changes nothing. (No expiry sweep runs in between.) -/
theorem answer_lifecycle (hmac : List Byte → List Byte → List Byte)
    (wss : WebSignalServer) (c : OfferForm) (X now U : Nat) (q : AnswerQuery)
    (payload : List Byte)
    (hacc : (wss.offerHandler hmac c X now).2
      = .json 200 [("status", .str "success"), ("offer_id", .str (formatHex X))])
    (hU : ParseUint16 c.uid = .ok U)
    (hq1 : ParseUint16 q.oid = .ok X) (hq2 : ParseUint16 q.uid = .ok U)
    (hp : payload ≠ []) :
    (∀ n, (wss.offerHandler hmac c X now).1.pollAnswer q n
        = ((wss.offerHandler hmac c X now).1,
            List.replicate n (.json 200 [("status", .str "pending")])))
    ∧ ((wss.offerHandler hmac c X now).1.Answer X payload).2 = none
    ∧ (((wss.offerHandler hmac c X now).1.Answer X payload).1.answerHandler q).2
        = .json 200 [("status", .str "success"), ("answer", .str (ToBase64 payload))]
    ∧ (∀ q1 : AnswerQuery, ParseUint16 q1.oid = .ok X →
        ∀ n, ((((wss.offerHandler hmac c X now).1.Answer X payload).1.answerHandler q).1).pollAnswer
            q1 n
          = ((((wss.offerHandler hmac c X now).1.Answer X payload).1.answerHandler q).1,
              List.replicate n .antiProbing)) := by
  obtain ⟨offer, -, h1⟩ := offerHandler_accepted hmac wss c X now U _ hacc hU
  rw [h1]
  have hA : (WebSignalServer.mk (wss.offerQueue ++ [receivedOffer.mk X offer])
        (Function.update wss.answerMap X (some (WebAnswer.mk (now + wss.answerValidFor) U [])))
        wss.answerValidFor wss.passwords).Answer X payload
      = (WebSignalServer.mk (wss.offerQueue ++ [receivedOffer.mk X offer])
          (Function.update wss.answerMap X
            (some (WebAnswer.mk (now + wss.answerValidFor) U payload)))
          wss.answerValidFor wss.passwords, none) := by
    simp [WebSignalServer.Answer]
  rw [hA]
  dsimp only
  have hS := answerHandler_success
    (WebSignalServer.mk (wss.offerQueue ++ [receivedOffer.mk X offer])
      (Function.update wss.answerMap X (some (WebAnswer.mk (now + wss.answerValidFor) U payload)))
      wss.answerValidFor wss.passwords) q X U (WebAnswer.mk (now + wss.answerValidFor) U payload)
    hq1 hq2 (by simp) rfl hp
  rw [hS]
  dsimp only
  refine ⟨?_, rfl, rfl, ?_⟩
  · intro n
    exact pollAnswer_fixed _ _ _
      (answerHandler_pending _ q X U (WebAnswer.mk (now + wss.answerValidFor) U [])
        hq1 hq2 (by simp) rfl rfl) n
  · intro q1 hq n
    exact pollAnswer_fixed _ _ _ (answerHandler_absent _ q1 X hq (by simp)) n

/-- Witness of C4 (amended): the offer "hello" of user 7 is accepted with id 5; after
`Answer(5, "world")` the poll of user 7 for id 5 gets the base64 of "world". -/
theorem answer_lifecycle_witness :
    ((((exampleServer.offerHandler exampleMac exampleForm 5 0).1.Answer 5
        (ascii "world")).1.answerHandler ⟨"5", "7"⟩).2)
      = .json 200 [("status", .str "success"), ("answer", .str (ToBase64 (ascii "world")))] :=
  (answer_lifecycle exampleMac exampleServer exampleForm 5 0 7 ⟨"5", "7"⟩ (ascii "world")
    (by decide) (by decide) (by decide) (by decide) (by decide)).2.2.1

/-- Counterexample to C4 as stated: with the empty answer payload, `Answer(5, [])`
succeeds, yet the next `answerHandler` call for id 5 and its owner still replies
{status: "pending"}, not {status: "success"}, and the entry stays in the map. -/
theorem empty_answer_stays_pending :
    (exampleServer.offerHandler exampleMac exampleForm 5 0).2
      = .json 200 [("status", .str "success"), ("offer_id", .str "5")]
    ∧ ((exampleServer.offerHandler exampleMac exampleForm 5 0).1.Answer 5 []).2 = none
    ∧ ((((exampleServer.offerHandler exampleMac exampleForm 5 0).1.Answer 5 []).1.answerHandler
        ⟨"5", "7"⟩).2) = .json 200 [("status", .str "pending")]
    ∧ (((((exampleServer.offerHandler exampleMac exampleForm 5 0).1.Answer 5 []).1.answerHandler
        ⟨"5", "7"⟩).1).answerMap 5) = some ⟨0 + 60 * second, 7, []⟩ := by
  decide

/-! ## Expiry sweep -/

theorem cleanEntry_fields (wss : WebSignalServer) (k now : Nat) :
    (wss.cleanEntry k now).offerQueue = wss.offerQueue
    ∧ (wss.cleanEntry k now).passwords = wss.passwords
    ∧ (wss.cleanEntry k now).answerValidFor = wss.answerValidFor := by
  unfold WebSignalServer.cleanEntry
  split
  · exact ⟨rfl, rfl, rfl⟩
  · split_ifs <;> exact ⟨rfl, rfl, rfl⟩

/-- What one loop iteration does to the entry under any key `j`. -/
theorem cleanEntry_answerMap (wss : WebSignalServer) (k now j : Nat) :
    (wss.cleanEntry k now).answerMap j =
      if j = k then
        match wss.answerMap k with
        | none => none
        | some v => if now > v.Expiry then none else some v
      else wss.answerMap j := by
  unfold WebSignalServer.cleanEntry
  by_cases hj : j = k
  · subst hj
    simp only [if_true]
    cases h : wss.answerMap j with
    | none => simp [h]
    | some v =>
      dsimp only
      split_ifs <;> simp [h]
  · simp only [hj, if_false]
    cases h : wss.answerMap k with
    | none => rfl
    | some v =>
      dsimp only
      split_ifs
      · simp [Function.update_noteq hj]
      · rfl

theorem cleanEntry_absent (wss : WebSignalServer) (k now : Nat) (h : wss.answerMap k = none) :
    wss.cleanEntry k now = wss := by
  simp [WebSignalServer.cleanEntry, h]

theorem cleanEntry_unexpired (wss : WebSignalServer) (k now : Nat) (v : WebAnswer)
    (h : wss.answerMap k = some v) (hv : ¬ now > v.Expiry) : wss.cleanEntry k now = wss := by
  simp [WebSignalServer.cleanEntry, h, hv]

/-- A pass whose every look at the clock gives `t`: the entry of `j` afterwards. -/
theorem answerCleanerPass_answerMap (visits : List (Nat × Nat)) (t : Nat)
    (htime : ∀ kv ∈ visits, kv.2 = t) :
    ∀ (wss : WebSignalServer) (j : Nat),
      (wss.answerCleanerPass visits).answerMap j =
        if (∃ kv ∈ visits, kv.1 = j) then
          match wss.answerMap j with
          | none => none
          | some v => if t > v.Expiry then none else some v
        else wss.answerMap j := by
  induction visits with
  | nil => intro wss j; simp [WebSignalServer.answerCleanerPass]
  | cons kv rest ih =>
    intro wss j
    have hrest : ∀ x ∈ rest, x.2 = t := fun x hx => htime x (List.mem_cons_of_mem _ hx)
    have hkv : kv.2 = t := htime kv (List.mem_cons_self _ _)
    have hfold : wss.answerCleanerPass (kv :: rest)
        = (wss.cleanEntry kv.1 kv.2).answerCleanerPass rest := by
      simp [WebSignalServer.answerCleanerPass]
    rw [hfold, ih hrest, cleanEntry_answerMap, hkv]
    by_cases hj : j = kv.1
    · subst hj
      have hex : ∃ x ∈ kv :: rest, x.1 = kv.1 := ⟨kv, List.mem_cons_self _ _, rfl⟩
      rw [if_pos hex, if_pos rfl]
      cases h : wss.answerMap kv.1 with
      | none => simp
      | some v =>
        dsimp only
        by_cases hv : t > v.Expiry
        · simp [hv]
        · simp [hv]
    · simp only [hj, if_false]
      have hiff : (∃ x ∈ kv :: rest, x.1 = j) ↔ (∃ x ∈ rest, x.1 = j) := by
        constructor
        · rintro ⟨x, hx, hxj⟩
          rcases List.mem_cons.mp hx with rfl | hx
          · exact absurd hxj.symm hj
          · exact ⟨x, hx, hxj⟩
        · rintro ⟨x, hx, hxj⟩
          exact ⟨x, List.mem_cons_of_mem _ hx, hxj⟩
      simp only [hiff]

theorem answerCleanerPass_fields (visits : List (Nat × Nat)) :
    ∀ (wss : WebSignalServer),
      (wss.answerCleanerPass visits).offerQueue = wss.offerQueue
      ∧ (wss.answerCleanerPass visits).passwords = wss.passwords
      ∧ (wss.answerCleanerPass visits).answerValidFor = wss.answerValidFor := by
  induction visits with
  | nil => intro wss; exact ⟨rfl, rfl, rfl⟩
  | cons kv rest ih =>
    intro wss
    have hfold : wss.answerCleanerPass (kv :: rest)
        = (wss.cleanEntry kv.1 kv.2).answerCleanerPass rest := by
      simp [WebSignalServer.answerCleanerPass]
    obtain ⟨h1, h2, h3⟩ := ih (wss.cleanEntry kv.1 kv.2)
    obtain ⟨g1, g2, g3⟩ := cleanEntry_fields wss kv.1 kv.2
    rw [hfold]
    exact ⟨h1.trans g1, h2.trans g2, h3.trans g3⟩

/-- A pass at a time at which no entry it looks at has expired changes nothing. -/
theorem answerCleanerPass_fixed (visits : List (Nat × Nat)) (t : Nat) (wss : WebSignalServer)
    (htime : ∀ kv ∈ visits, kv.2 = t)
    (hlive : ∀ k v, wss.answerMap k = some v → ¬ t > v.Expiry) :
    wss.answerCleanerPass visits = wss := by
  induction visits with
  | nil => rfl
  | cons kv rest ih =>
    have hfold : wss.answerCleanerPass (kv :: rest)
        = (wss.cleanEntry kv.1 kv.2).answerCleanerPass rest := by
      simp [WebSignalServer.answerCleanerPass]
    have hkv : kv.2 = t := htime kv (List.mem_cons_self _ _)
    have hstep : wss.cleanEntry kv.1 kv.2 = wss := by
      cases h : wss.answerMap kv.1 with
      | none => exact cleanEntry_absent _ _ _ h
      | some v => exact cleanEntry_unexpired _ _ _ v h (by rw [hkv]; exact hlive _ _ h)
    rw [hfold, hstep]
    exact ih (fun x hx => htime x (List.mem_cons_of_mem _ hx))

/-- C11: expiry sweep. One pass of the sweep that meets every entry of the answer map
and reads the time `t` at each removes exactly the entries whose expiry is before `t`,
with or without an answer payload, and leaves every other entry, the offer queue and
the credential table unchanged. A second pass at the same time `t`, in whatever
order, changes nothing. An id with no entry is a no-op for the sweep: it stays
absent, and the loop step for it returns the server as it was; the sweep has no error
result. -/
theorem answerCleanerPass_spec (wss : WebSignalServer) (visits : List (Nat × Nat)) (t : Nat)
    (hcover : ∀ k, wss.answerMap k ≠ none → ∃ kv ∈ visits, kv.1 = k)
    (htime : ∀ kv ∈ visits, kv.2 = t) :
    (∀ k v, wss.answerMap k = some v → v.Expiry < t →
        (wss.answerCleanerPass visits).answerMap k = none)
    ∧ (∀ k v, wss.answerMap k = some v → ¬ v.Expiry < t →
        (wss.answerCleanerPass visits).answerMap k = some v)
    ∧ (∀ k, wss.answerMap k = none → (wss.answerCleanerPass visits).answerMap k = none)
    ∧ (wss.answerCleanerPass visits).offerQueue = wss.offerQueue
    ∧ (wss.answerCleanerPass visits).passwords = wss.passwords
    ∧ (∀ visits2 : List (Nat × Nat), (∀ kv ∈ visits2, kv.2 = t) →
        (wss.answerCleanerPass visits).answerCleanerPass visits2 = wss.answerCleanerPass visits)
    ∧ (∀ k now, wss.answerMap k = none → wss.cleanEntry k now = wss) := by
  have hmap := answerCleanerPass_answerMap visits t htime wss
  have hsome : ∀ k v, wss.answerMap k = some v →
      (wss.answerCleanerPass visits).answerMap k = if t > v.Expiry then none else some v := by
    intro k v hk
    have hex : ∃ kv ∈ visits, kv.1 = k := hcover k (by rw [hk]; simp)
    rw [hmap k, if_pos hex, hk]
  have hnone : ∀ k, wss.answerMap k = none →
      (wss.answerCleanerPass visits).answerMap k = none := by
    intro k hk
    rw [hmap k, hk]
    split_ifs <;> rfl
  obtain ⟨hq, hp, -⟩ := answerCleanerPass_fields visits wss
  refine ⟨?_, ?_, hnone, hq, hp, ?_, fun k now hk => cleanEntry_absent wss k now hk⟩
  · intro k v hk hv
    rw [hsome k v hk, if_pos hv]
  · intro k v hk hv
    rw [hsome k v hk, if_neg hv]
  · intro visits2 htime2
    apply answerCleanerPass_fixed visits2 t _ htime2
    intro k v hk
    cases hw : wss.answerMap k with
    | none => rw [hnone k hw] at hk; simp at hk
    | some v0 =>
      rw [hsome k v0 hw] at hk
      split_ifs at hk with hv0
      simp only [Option.some.injEq] at hk
      subst hk
      exact hv0

theorem sweepExampleServer_cover (k : Nat) (h : sweepExampleServer.answerMap k ≠ none) :
    ∃ kv ∈ [(3, 20), (1, 20), (2, 20)], kv.1 = k := by
  unfold sweepExampleServer at h
  simp only at h
  split_ifs at h with h1 h2 h3
  · exact ⟨(1, 20), by simp, h1.symm⟩
  · exact ⟨(2, 20), by simp, h2.symm⟩
  · exact ⟨(3, 20), by simp, h3.symm⟩
  · exact absurd rfl h

/-- Witness of C11: a pass at time 20 over the entries 3, 1, 2 removes the entries 1
and 2, which expired at time 10 (one unanswered, one answered), keeps the entry 3,
which expires at time 30, and leaves the absent id 4 absent. -/
theorem answerCleanerPass_spec_witness :
    (sweepExampleServer.answerCleanerPass [(3, 20), (1, 20), (2, 20)]).answerMap 1 = none
    ∧ (sweepExampleServer.answerCleanerPass [(3, 20), (1, 20), (2, 20)]).answerMap 2 = none
    ∧ (sweepExampleServer.answerCleanerPass [(3, 20), (1, 20), (2, 20)]).answerMap 3
        = some ⟨30, 7, []⟩
    ∧ (sweepExampleServer.answerCleanerPass [(3, 20), (1, 20), (2, 20)]).answerMap 4 = none :=
  ⟨(answerCleanerPass_spec sweepExampleServer [(3, 20), (1, 20), (2, 20)] 20
      sweepExampleServer_cover (by decide)).1 1 ⟨10, 7, []⟩ (by decide) (by decide),
    (answerCleanerPass_spec sweepExampleServer [(3, 20), (1, 20), (2, 20)] 20
      sweepExampleServer_cover (by decide)).1 2 ⟨10, 7, ascii "world"⟩ (by decide) (by decide),
    (answerCleanerPass_spec sweepExampleServer [(3, 20), (1, 20), (2, 20)] 20
      sweepExampleServer_cover (by decide)).2.1 3 ⟨30, 7, []⟩ (by decide) (by decide),
    (answerCleanerPass_spec sweepExampleServer [(3, 20), (1, 20), (2, 20)] 20
      sweepExampleServer_cover (by decide)).2.2.1 4 (by decide)⟩

/-! ## Order of the queue send and the answer entry -/

/-- Method `offerHandler` run without interruption is its first part followed by its
second part. -/
theorem offerHandler_eq_send_store (hmac : List Byte → List Byte → List Byte)
    (wss : WebSignalServer) (c : OfferForm) (rnd now : Nat) :
    wss.offerHandler hmac c rnd now =
      match wss.offerHandlerSend hmac c rnd with
      | (wss1, none) => (wss1, .antiProbing)
      | (wss1, some (offerID, uid)) => wss1.offerHandlerStore offerID uid now := by
  cases ho : FromBase64 c.offer with
  | error e =>
    simp [WebSignalServer.offerHandler, WebSignalServer.offerHandlerSend, ho]
  | ok offer =>
    cases hm : FromBase64 c.mac with
    | error e =>
      simp [WebSignalServer.offerHandler, WebSignalServer.offerHandlerSend, ho, hm]
    | ok mac =>
      cases hu : ParseUint16 c.uid with
      | error e =>
        simp [WebSignalServer.offerHandler, WebSignalServer.offerHandlerSend, ho, hm, hu]
      | ok uid =>
        cases hp : wss.passwords.lookup uid with
        | none =>
          simp [WebSignalServer.offerHandler, WebSignalServer.offerHandlerSend, ho, hm, hu, hp]
        | some password =>
          by_cases hk : hmac password offer = mac
          · simp [WebSignalServer.offerHandler, WebSignalServer.offerHandlerSend,
              WebSignalServer.offerHandlerStore, ho, hm, hu, hp, hk]
          · simp [WebSignalServer.offerHandler, WebSignalServer.offerHandlerSend,
              ho, hm, hu, hp, hk]

/-- The first part of `offerHandler`, when it sends an offer, puts it at the end of the
queue under the id drawn and does not touch the answer map. -/
theorem offerHandlerSend_sent (hmac : List Byte → List Byte → List Byte)
    (wss wss1 : WebSignalServer) (c : OfferForm) (rnd offerID uid : Nat)
    (h : wss.offerHandlerSend hmac c rnd = (wss1, some (offerID, uid))) :
    offerID = rnd ∧ wss1.answerMap = wss.answerMap
      ∧ ∃ offer, wss1.offerQueue = wss.offerQueue ++ [receivedOffer.mk rnd offer] := by
  unfold WebSignalServer.offerHandlerSend at h
  cases ho : FromBase64 c.offer with
  | error e => rw [ho] at h; simp at h
  | ok offer =>
    rw [ho] at h
    dsimp only at h
    cases hm : FromBase64 c.mac with
    | error e => rw [hm] at h; simp at h
    | ok mac =>
      rw [hm] at h
      dsimp only at h
      cases hu : ParseUint16 c.uid with
      | error e => rw [hu] at h; simp at h
      | ok u =>
        rw [hu] at h
        dsimp only at h
        cases hp : wss.passwords.lookup u with
        | none => rw [hp] at h; simp at h
        | some password =>
          rw [hp] at h
          dsimp only at h
          split_ifs at h with hmac_ne
          · simp at h
          · simp only [Prod.mk.injEq, Option.some.injEq] at h
            obtain ⟨h1, h2, -⟩ := h
            subst h1
            exact ⟨h2.symm, rfl, offer, rfl⟩

/-- C13 (the code breaks the claim): `offerHandler` sends the offer to the queue before
it creates the answer entry, in two separate steps. On the server that
`NewWebSignalServer` builds for user 7, the first step for a well-formed offer with
the drawn id 5 leaves a state in which the
offer 5 is in the queue while the answer map has no entry for 5. `ReadOffer` then
returns the id 5, and `Answer(5, payload)` called right after it fails with
"offer ID not found", for every payload, although no time has passed. The second
step of `offerHandler` then creates the empty entry, which never gets that payload. -/
theorem Answer_fails_between_send_and_store (payload : List Byte) :
    NewWebSignalServer [(7, ascii "s3cr3t")] = .ok exampleServer
    ∧ (exampleServer.offerHandlerSend exampleMac exampleForm 5).2 = some (5, 7)
    ∧ (exampleServer.offerHandlerSend exampleMac exampleForm 5).1.offerQueue
        = [receivedOffer.mk 5 (ascii "hello")]
    ∧ (exampleServer.offerHandlerSend exampleMac exampleForm 5).1.answerMap 5 = none
    ∧ ((exampleServer.offerHandlerSend exampleMac exampleForm 5).1.ReadOffer).map
        (fun r => (r.2.1, r.2.2.1)) = some (5, ascii "hello")
    ∧ (((exampleServer.offerHandlerSend exampleMac exampleForm 5).1.ReadOffer).map
        (fun r => (r.1.Answer 5 payload).2)) = some (some (.errorf "offer ID not found" []))
    ∧ (((exampleServer.offerHandlerSend exampleMac exampleForm 5).1.ReadOffer).map
        (fun r => ((r.1.Answer 5 payload).1.offerHandlerStore 5 7 0).1.answerMap 5))
        = some (some ⟨0 + 60 * second, 7, []⟩) := by
  have hs : exampleServer.offerHandlerSend exampleMac exampleForm 5
      = (WebSignalServer.mk [receivedOffer.mk 5 (ascii "hello")] exampleServer.answerMap
          exampleServer.answerValidFor exampleServer.passwords, some (5, 7)) := by
    have h1 : FromBase64 exampleForm.offer = .ok (ascii "hello") := by decide
    have h2 : FromBase64 exampleForm.mac = .ok (exampleMac (ascii "s3cr3t") (ascii "hello")) := by
      decide
    have h3 : ParseUint16 exampleForm.uid = .ok 7 := by decide
    have h4 : exampleServer.passwords.lookup 7 = some (ascii "s3cr3t") := by decide
    simp [WebSignalServer.offerHandlerSend, h1, h2, h3, h4]
    rfl
  rw [hs]
  have hm : exampleServer.answerMap 5 = none := rfl
  refine ⟨rfl, rfl, rfl, hm, rfl, ?_, ?_⟩
  · simp [WebSignalServer.ReadOffer, WebSignalServer.Answer, hm]
  · simp [WebSignalServer.ReadOffer, WebSignalServer.Answer, hm,
      WebSignalServer.offerHandlerStore]
    rfl

/-! ## HTTP helpers -/

/-- With a response object present, `HttpsGet` and `HttpsPost` return normally: on a
request error with the status, a nil body and that error; otherwise with the status
and what reading the body gave. -/
theorem Https_helpers_with_response {σ : Type} (client : HttpClient σ) (url : Url)
    (values : List (String × String)) (net net1 : σ) (res : HttpResponse) (err : Option Error) :
    (client.Get url net = ((some res, err), net1) →
      HttpsGet client url net
        = (match err with
            | some e => some (res.StatusCode, Body.raw [], some e)
            | none => some (res.StatusCode, res.body, res.readErr), net1))
    ∧ (client.PostForm url values net = ((some res, err), net1) →
      HttpsPost client url values net
        = (match err with
            | some e => some (res.StatusCode, Body.raw [], some e)
            | none => some (res.StatusCode, res.body, res.readErr), net1)) := by
  refine ⟨?_, ?_⟩
  · intro h
    cases err <;> simp [HttpsGet, h]
  · intro h
    cases err <;> simp [HttpsPost, h]

/-- C15 (the code breaks the claim): when the underlying HTTP request fails with an
error and returns no response object, `HttpsGet` and `HttpsPost` evaluate
`res.StatusCode` on the nil response and panic instead of returning the error, and so
do `WebSignalClient.Offer` and `WebSignalClient.ReadAnswer`, which call them: the
transport error does not reach the caller. -/
theorem Https_helpers_panic_without_response (e : Error) (url : Url)
    (values : List (String × String)) (offer : List Byte) (offerID fuel : Nat) :
    (HttpsGet (failingClient e) url ()).1 = none
    ∧ (HttpsPost (failingClient e) url values ()).1 = none
    ∧ (exampleClient.Offer exampleMac (failingClient e) offer ()).1 = .panic
    ∧ (exampleClient.Offer exampleMac (failingClient e) offer ()).1 ≠ .error e
    ∧ (exampleClient.ReadAnswer (failingClient e) offerID (fuel + 1) ()).1 = some .panic
    ∧ (exampleClient.ReadAnswer (failingClient e) offerID (fuel + 1) ()).1 ≠ some (.error e) := by
  have hurl : exampleClient.BaseURL ≠ "" := by decide
  have ho : (exampleClient.Offer exampleMac (failingClient e) offer ()).1 = .panic := by
    simp [WebSignalClient.Offer, hurl, HttpsPost, failingClient]
  have hr : (exampleClient.ReadAnswer (failingClient e) offerID (fuel + 1) ()).1 = some .panic := by
    simp [WebSignalClient.ReadAnswer, WebSignalClient.readAnswerLoop, hurl, HttpsGet,
      failingClient]
  refine ⟨rfl, rfl, ho, ?_, hr, ?_⟩
  · rw [ho]; simp
  · rw [hr]; simp

/-! ## Signal client -/

theorem Offer_eq_offerResponse {σ : Type} (hmac : List Byte → List Byte → List Byte)
    (client : HttpClient σ) (wsc : WebSignalClient) (offer : List Byte) (net net1 : σ)
    (httpStatus : Int) (resp : Body) (hurl : wsc.BaseURL ≠ "")
    (hpost : client.PostForm ⟨wsc.BaseURL, "/offer", []⟩
        [("offer", ToBase64 offer), ("mac", ToBase64 (hmac wsc.Password offer)),
          ("uid", formatHex wsc.UserID)] net
      = ((some ⟨httpStatus, resp, none⟩, none), net1)) :
    wsc.Offer hmac client offer net = (WebSignalClient.offerResponse httpStatus resp, net1) := by
  simp [WebSignalClient.Offer, hurl, HttpsPost, hpost]

/-- C8 (amended): response handling of the client's `Offer`, for every HTTP status and
body the POST returns. `Offer` returns the id `i` exactly when the body is a JSON
object whose "status" is the string "success" and whose "offer_id" is a string that
parses as the hexadecimal uint64 `i`. A body that is no JSON object, and a string
status other than "success", give an error whose message carries the HTTP status and
the raw body; a missing status gives an error whose message carries the raw body but
not the HTTP status; a missing offer_id gives an error whose message has no argument,
so carries neither; an offer_id string that does not parse gives an error whose
message carries the `*strconv.NumError` of `ParseUint`, which quotes that offer_id
string, and carries neither the HTTP status nor the raw body. (Fields of a non-string
JSON type are left out of this statement.) -/
theorem Offer_response_handling {σ : Type} (hmac : List Byte → List Byte → List Byte)
    (client : HttpClient σ) (wsc : WebSignalClient) (offer : List Byte) (net net1 : σ)
    (httpStatus : Int) (resp : Body) (hurl : wsc.BaseURL ≠ "")
    (hpost : client.PostForm ⟨wsc.BaseURL, "/offer", []⟩
        [("offer", ToBase64 offer), ("mac", ToBase64 (hmac wsc.Password offer)),
          ("uid", formatHex wsc.UserID)] net
      = ((some ⟨httpStatus, resp, none⟩, none), net1)) :
    (∀ i, (wsc.Offer hmac client offer net).1 = .ok i ↔
        ∃ o h, resp = .json o ∧ o.lookup "status" = some (.str "success")
          ∧ o.lookup "offer_id" = some (.str h) ∧ ParseUint16 h = .ok i)
    ∧ (∀ bytes, resp = .raw bytes →
        (wsc.Offer hmac client offer net).1 = .error (.errorf
          "failed to parse JSON response, HTTP status: %d, response: %s"
          [.int httpStatus, .body resp]))
    ∧ (∀ o, resp = .json o →
        (o.lookup "status" = none →
          (wsc.Offer hmac client offer net).1 = .error (.errorf
            "failed to get status from response, response: %s" [.body resp]))
        ∧ (∀ st, o.lookup "status" = some (.str st) → st ≠ "success" →
            (wsc.Offer hmac client offer net).1 = .error (.errorf
              "failed to send offer, status: %s, HTTP status: %d, response: %s"
              [.value (.str st), .int httpStatus, .body resp]))
        ∧ (o.lookup "status" = some (.str "success") → o.lookup "offer_id" = none →
            (wsc.Offer hmac client offer net).1 = .error (.errorf
              "failed to get offer ID from response" []))
        ∧ (∀ h e, o.lookup "status" = some (.str "success") →
            o.lookup "offer_id" = some (.str h) → ParseUint16 h = .error e →
            (wsc.Offer hmac client offer net).1 = .error (.errorf
              "failed to parse offer ID, error: %s" [.numError e])
            ∧ e.Func = "ParseUint" ∧ e.Num = h)) := by
  rw [Offer_eq_offerResponse hmac client wsc offer net net1 httpStatus resp hurl hpost]
  dsimp only
  refine ⟨?_, ?_, ?_⟩
  · intro i
    constructor
    · intro h
      unfold WebSignalClient.offerResponse at h
      split at h
      · simp at h
      · rename_i respMap
        split at h
        · rename_i status hs
          split at h
          · rename_i st
            split_ifs at h with hst
            simp only [ne_eq, not_not] at hst
            subst hst
            split at h
            · rename_i offerID ho
              split at h
              · rename_i hx
                split at h
                · simp at h
                · rename_i j hj
                  simp only [Result.ok.injEq] at h
                  subst h
                  exact ⟨respMap, hx, rfl, hs, ho, hj⟩
              · simp at h
            · simp at h
          · simp at h
        · simp at h
    · rintro ⟨o, h, rfl, hs, ho, hp⟩
      simp [WebSignalClient.offerResponse, hs, ho, hp]
  · rintro bytes rfl
    simp [WebSignalClient.offerResponse]
  · rintro o rfl
    refine ⟨?_, ?_, ?_, ?_⟩
    · intro hs
      simp [WebSignalClient.offerResponse, hs]
    · intro st hs hne
      simp [WebSignalClient.offerResponse, hs, hne]
    · intro hs ho
      simp [WebSignalClient.offerResponse, hs, ho]
    · intro h e hs ho hp
      refine ⟨?_, ParseUint16_error h e hp⟩
      simp [WebSignalClient.offerResponse, hs, ho, hp]

/-- Witness of C8 (amended): the reply 200 with status "success" and offer_id "2a". -/
theorem Offer_response_handling_witness :
    (exampleClient.Offer exampleMac
      (replyingClient ⟨200, .json [("status", .str "success"), ("offer_id", .str "2a")], none⟩)
      (ascii "hello") ()).1 = .ok 42 :=
  ((Offer_response_handling exampleMac
      (replyingClient ⟨200, .json [("status", .str "success"), ("offer_id", .str "2a")], none⟩)
      exampleClient (ascii "hello") () () 200
      (.json [("status", .str "success"), ("offer_id", .str "2a")]) (by decide) rfl).1 42).2
    ⟨_, "2a", rfl, by decide, by decide, by decide⟩

/-- Counterexample to C8 as stated: the reply 200 with the body {"status": "success"},
which has no offer_id, makes `Offer` return an error whose message has no argument:
it carries neither the HTTP status nor the raw body. -/
theorem Offer_error_without_status_and_body :
    (exampleClient.Offer exampleMac
      (replyingClient ⟨200, .json [("status", .str "success")], none⟩) (ascii "hello") ()).1
      = .error (.errorf "failed to get offer ID from response" []) := by
  decide

/-- An offer_id that is no hexadecimal number makes `Offer` return an error whose
message prints the `*strconv.NumError`, which quotes the offer_id "zz":
`strconv.ParseUint: parsing "zz": invalid syntax`. -/
theorem Offer_unparsable_offer_id :
    (exampleClient.Offer exampleMac
      (replyingClient ⟨200, .json [("status", .str "success"), ("offer_id", .str "zz")], none⟩)
      (ascii "hello") ()).1
      = .error (.errorf "failed to parse offer ID, error: %s"
          [.numError ⟨"ParseUint", "zz", .ErrSyntax⟩]) := by
  decide

/-- The errors of `ParseUint16`: the empty string and a character that is no digit
are syntax errors, seventeen digits `f` are a range error. -/
theorem ParseUint16_errors :
    ParseUint16 "" = .error ⟨"ParseUint", "", .ErrSyntax⟩
    ∧ ParseUint16 "0x10" = .error ⟨"ParseUint", "0x10", .ErrSyntax⟩
    ∧ ParseUint16 "fffffffffffffffff" = .error ⟨"ParseUint", "fffffffffffffffff", .ErrRange⟩ := by
  decide

/-- A status that is no JSON string makes `Offer` panic on the type assertion
`status.(string)`. -/
theorem Offer_panics_on_number_status :
    (exampleClient.Offer exampleMac
      (replyingClient ⟨200, .json [("status", .number)], none⟩) (ascii "hello") ()).1
      = .panic := by
  decide

/-- The client's `Offer` against a server that knows its credentials: the offer is
accepted and the id comes back. -/
theorem Offer_served (hmac : List Byte → List Byte → List Byte) (anti : HttpResponse)
    (wss : WebSignalServer) (wsc : WebSignalClient) (o : List Byte) (rnd now : Nat)
    (hurl : wsc.BaseURL ≠ "") (huid : wsc.UserID < 2 ^ 64) (hrnd : rnd < 2 ^ 64)
    (hcfg : wss.passwords.lookup wsc.UserID = some wsc.Password) :
    wsc.Offer hmac (WebSignalServer.serve hmac anti rnd now) o wss
      = (.ok rnd,
          WebSignalServer.mk (wss.offerQueue ++ [receivedOffer.mk rnd o])
            (Function.update wss.answerMap rnd
              (some (WebAnswer.mk (now + wss.answerValidFor) wsc.UserID [])))
            wss.answerValidFor wss.passwords) := by
  have hh : wss.offerHandler hmac
      ⟨ToBase64 o, ToBase64 (hmac wsc.Password o), formatHex wsc.UserID⟩ rnd now
      = (WebSignalServer.mk (wss.offerQueue ++ [receivedOffer.mk rnd o])
            (Function.update wss.answerMap rnd
              (some (WebAnswer.mk (now + wss.answerValidFor) wsc.UserID [])))
            wss.answerValidFor wss.passwords,
          .json 200 [("status", .str "success"), ("offer_id", .str (formatHex rnd))]) := by
    simp [WebSignalServer.offerHandler, FromBase64_ToBase64, ParseUint16_formatHex _ huid, hcfg]
  have hpost : (WebSignalServer.serve hmac anti rnd now).PostForm ⟨wsc.BaseURL, "/offer", []⟩
        [("offer", ToBase64 o), ("mac", ToBase64 (hmac wsc.Password o)),
          ("uid", formatHex wsc.UserID)] wss
      = ((some ⟨200, .json [("status", .str "success"), ("offer_id", .str (formatHex rnd))],
            none⟩, none),
          WebSignalServer.mk (wss.offerQueue ++ [receivedOffer.mk rnd o])
            (Function.update wss.answerMap rnd
              (some (WebAnswer.mk (now + wss.answerValidFor) wsc.UserID [])))
            wss.answerValidFor wss.passwords) := by
    simp [WebSignalServer.serve, List.lookup, hh, HandlerOutcome.toResponse]
  rw [Offer_eq_offerResponse hmac _ wsc o wss _ 200 _ hurl hpost]
  simp [WebSignalClient.offerResponse, List.lookup, ParseUint16_formatHex _ hrnd]

/-- The client's `ReadAnswer` against a server whose entry for the id carries a
non-empty answer owned by the client: the answer comes back at the first poll. -/
theorem ReadAnswer_served (hmac : List Byte → List Byte → List Byte) (anti : HttpResponse)
    (wss : WebSignalServer) (wsc : WebSignalClient) (id rnd now fuel : Nat) (ans : WebAnswer)
    (hurl : wsc.BaseURL ≠ "") (huid : wsc.UserID < 2 ^ 64) (hid : id < 2 ^ 64)
    (hent : wss.answerMap id = some ans) (hown : ans.OwnerUID = wsc.UserID)
    (hne : ans.Answer ≠ []) :
    wsc.ReadAnswer (WebSignalServer.serve hmac anti rnd now) id (fuel + 1) wss
      = (some (.ok ans.Answer),
          WebSignalServer.mk wss.offerQueue (Function.update wss.answerMap id none)
            wss.answerValidFor wss.passwords) := by
  have hh := answerHandler_success wss ⟨formatHex id, formatHex wsc.UserID⟩ id wsc.UserID ans
    (ParseUint16_formatHex _ hid) (ParseUint16_formatHex _ huid) hent hown hne
  have hget : (WebSignalServer.serve hmac anti rnd now).Get
        ⟨wsc.BaseURL, "/answer", [("oid", formatHex id), ("uid", formatHex wsc.UserID)]⟩ wss
      = ((some ⟨200, .json [("status", .str "success"), ("answer", .str (ToBase64 ans.Answer))],
            none⟩, none),
          WebSignalServer.mk wss.offerQueue (Function.update wss.answerMap id none)
            wss.answerValidFor wss.passwords) := by
    simp [WebSignalServer.serve, List.lookup, hh, HandlerOutcome.toResponse]
  simp [WebSignalClient.ReadAnswer, WebSignalClient.readAnswerLoop, hurl, HttpsGet, hget,
    List.lookup, FromBase64_ToBase64]

/-- C6: the signaling exchange is a faithful channel. A server is created with a
credential table that maps `uid` to `secret`; a client is configured with a non-empty
base URL, the same `uid` and the same `secret`; the client's requests reach the
server's handlers. Then for every offer payload `o` and every non-empty answer
payload `a`: `Offer(o)` is accepted and returns the id `rnd` the server drew;
`ReadOffer` then returns that id with a payload equal to `o`; `Answer(rnd, a)`
succeeds; and `ReadAnswer(rnd)` returns `a` at its first request, so for every
positive bound on the number of polls. (No expiry sweep runs during the exchange.) -/
theorem signaling_exchange_faithful (hmac : List Byte → List Byte → List Byte)
    (anti : HttpResponse) (passwords : List (Nat × List Byte)) (baseURL : String)
    (uid : Nat) (secret o a : List Byte) (rnd now rnd1 now1 : Nat)
    (hurl : baseURL ≠ "") (huid : uid < 2 ^ 64) (hrnd : rnd < 2 ^ 64)
    (hcfg : passwords.lookup uid = some secret) (ha : a ≠ []) :
    ∃ wss0 wss1 wss2 wss3 wss4,
      NewWebSignalServer passwords = .ok wss0
      ∧ (WebSignalClient.mk baseURL uid secret).Offer hmac
          (WebSignalServer.serve hmac anti rnd now) o wss0 = (.ok rnd, wss1)
      ∧ wss1.ReadOffer = some (wss2, rnd, o, none)
      ∧ wss2.Answer rnd a = (wss3, none)
      ∧ ∀ fuel, (WebSignalClient.mk baseURL uid secret).ReadAnswer
          (WebSignalServer.serve hmac anti rnd1 now1) rnd (fuel + 1) wss3 = (some (.ok a), wss4) := by
  have hpw : passwords.length ≠ 0 := by
    intro h
    rw [List.length_eq_zero] at h
    subst h
    simp at hcfg
  let m1 : Nat → Option WebAnswer :=
    Function.update (fun _ => none) rnd (some (WebAnswer.mk (now + 60 * second) uid []))
  let m3 : Nat → Option WebAnswer :=
    Function.update m1 rnd (some (WebAnswer.mk (now + 60 * second) uid a))
  refine ⟨⟨[], fun _ => none, 60 * second, passwords⟩,
    ⟨[] ++ [receivedOffer.mk rnd o], m1, 60 * second, passwords⟩,
    ⟨[], m1, 60 * second, passwords⟩, ⟨[], m3, 60 * second, passwords⟩,
    ⟨[], Function.update m3 rnd none, 60 * second, passwords⟩, ?_, ?_, ?_, ?_, ?_⟩
  · simp [NewWebSignalServer, hpw]
  · exact Offer_served hmac anti _ ⟨baseURL, uid, secret⟩ o rnd now hurl huid hrnd hcfg
  · simp [WebSignalServer.ReadOffer]
  · simp [WebSignalServer.Answer, m1, m3]
  · intro fuel
    exact ReadAnswer_served hmac anti ⟨[], m3, 60 * second, passwords⟩ ⟨baseURL, uid, secret⟩
      rnd rnd1 now1 fuel ⟨now + 60 * second, uid, a⟩ hurl huid hrnd (by simp [m3]) rfl ha

/-- Witness of C6: user 7 with the secret "s3cr3t" offers "hello", the server draws the
id 5 and answers "world". -/
theorem signaling_exchange_faithful_witness :
    ∃ wss0 wss1 wss2 wss3 wss4,
      NewWebSignalServer [(7, ascii "s3cr3t")] = .ok wss0
      ∧ (WebSignalClient.mk "example.com:8443" 7 (ascii "s3cr3t")).Offer exampleMac
          (WebSignalServer.serve exampleMac defaultAntiProbing 5 0) (ascii "hello") wss0
          = (.ok 5, wss1)
      ∧ wss1.ReadOffer = some (wss2, 5, ascii "hello", none)
      ∧ wss2.Answer 5 (ascii "world") = (wss3, none)
      ∧ ∀ fuel, (WebSignalClient.mk "example.com:8443" 7 (ascii "s3cr3t")).ReadAnswer
          (WebSignalServer.serve exampleMac defaultAntiProbing 6 1) 5 (fuel + 1) wss3
          = (some (.ok (ascii "world")), wss4) :=
  signaling_exchange_faithful exampleMac defaultAntiProbing [(7, ascii "s3cr3t")]
    "example.com:8443" 7 (ascii "s3cr3t") (ascii "hello") (ascii "world") 5 0 6 1
    (by decide) (by decide) (by decide) (by decide) (by decide)

/-! ## Client dialer -/

theorem Connect_succ (dst : Addr) (fuel : Nat) (envs : Nat → DialEnv) (p : Socks5Proxy) :
    Socks5Proxy.Connect dst (fuel + 1) envs p =
      match p.connectOnce (envs 0) dst with
      | (p1, _, .error _) =>
        Socks5Proxy.Connect dst fuel (fun i => envs (i + 1)) (p1.invalidate p.rtcDialer)
      | (p1, _, r) => (p1, some r) := by
  rw [Socks5Proxy.Connect]

/-- Method `Connect` has no path that returns an error. -/
theorem Connect_never_error (dst : Addr) (fuel : Nat) :
    ∀ (envs : Nat → DialEnv) (p : Socks5Proxy) (e : Error),
      (Socks5Proxy.Connect dst fuel envs p).2 ≠ some (.error e) := by
  induction fuel with
  | zero => intro envs p e; simp [Socks5Proxy.Connect]
  | succ n ih =>
    intro envs p e
    rw [Connect_succ]
    rcases hc : p.connectOnce (envs 0) dst with ⟨p1, c, r⟩
    cases r with
    | ok a => simp
    | panic => simp
    | error e1 => exact ih _ _ e

theorem connectOnce_mismatch (p : Socks5Proxy) (env : DialEnv) (dst : Addr) (p1 : Socks5Proxy)
    (conn : Conn) (resp : Response)
    (hd : p.dial env ⟨dst.Network, dst.String, env.randSeq⟩ = (p1, .ok conn))
    (hw : ((⟨CONNECT, dst.Network, dst.String⟩ : Request).WriteTo conn.writer).2.2 = none)
    (hr : ReadResponse conn.reader = .ok resp)
    (hm : resp.Command ≠ CONNECT ∨ resp.NetworkType ≠ dst.Network) :
    (p.connectOnce env dst).1 = p1 ∧ (p.connectOnce env dst).2.2 = .error .invalidResponse := by
  unfold Socks5Proxy.connectOnce
  rw [hd]
  dsimp only
  rcases hwr : (⟨CONNECT, dst.Network, dst.String⟩ : Request).WriteTo conn.writer with ⟨w1, n, err⟩
  rw [hwr] at hw
  dsimp only at hw
  subst hw
  dsimp only [Conn.SetReadDeadline]
  rw [hr]
  dsimp only
  rw [if_pos hm]
  exact ⟨rfl, rfl⟩

/-- C9 (amended): when the tunnel connection is established, the Request is written and
the Response read back does not have Command = CONNECT and the request's NetworkType,
`connectOnce` fails with the protocol-mismatch error "socks5: invalid response".
`Connect` treats that error as it treats every error of `connectOnce`: it applies the
identity-guarded reset of the dialer and runs the next iteration of its loop. No
call of `Connect` returns an error, whatever the environment does. -/
theorem Connect_retries_protocol_mismatch (dst : Addr) (fuel : Nat) (envs : Nat → DialEnv)
    (p p1 : Socks5Proxy) (conn : Conn) (resp : Response)
    (hd : p.dial (envs 0) ⟨dst.Network, dst.String, (envs 0).randSeq⟩ = (p1, .ok conn))
    (hw : ((⟨CONNECT, dst.Network, dst.String⟩ : Request).WriteTo conn.writer).2.2 = none)
    (hr : ReadResponse conn.reader = .ok resp)
    (hm : resp.Command ≠ CONNECT ∨ resp.NetworkType ≠ dst.Network) :
    (p.connectOnce (envs 0) dst).2.2 = .error .invalidResponse
    ∧ Socks5Proxy.Connect dst (fuel + 1) envs p
        = Socks5Proxy.Connect dst fuel (fun i => envs (i + 1)) (p1.invalidate p.rtcDialer)
    ∧ ∀ (n : Nat) (envs1 : Nat → DialEnv) (q : Socks5Proxy) (e : Error),
        (Socks5Proxy.Connect dst n envs1 q).2 ≠ some (.error e) := by
  obtain ⟨h1, h2⟩ := connectOnce_mismatch p (envs 0) dst p1 conn resp hd hw hr hm
  refine ⟨h2, ?_, fun n envs1 q e => Connect_never_error dst n envs1 q e⟩
  rw [Connect_succ]
  rcases hc : p.connectOnce (envs 0) dst with ⟨q1, c, r⟩
  rw [hc] at h1 h2
  dsimp only at h1 h2
  subst h1 h2
  rfl

theorem ReadResponse_bind : ReadResponse ⟨none, [BIND, TCP], []⟩ = .ok ⟨BIND, "tcp", []⟩ := by
  unfold ReadResponse
  rw [ReadRequest_eq _ _ (by decide)]
  decide

theorem ReadResponse_connect :
    ReadResponse ⟨none, CONNECT :: TCP :: ascii "b:2", []⟩
      = .ok ⟨CONNECT, "tcp", ascii "b:2"⟩ := by
  unfold ReadResponse
  rw [ReadRequest_eq _ _ (by decide)]
  decide

theorem dial_fresh_mismatchThenOk :
    freshProxy.dial (mismatchThenOk 0) ⟨"tcp", ascii "a:1", "abcde"⟩
      = (⟨0, true, some 1⟩, .ok ((connReading [BIND, TCP]).IdleKiller 0)) := by
  simp [Socks5Proxy.dial, freshProxy, mismatchThenOk]

/-- Witness of C9 (amended): the fresh proxy against a peer that first answers BIND. -/
theorem Connect_retries_protocol_mismatch_witness :
    (freshProxy.connectOnce (mismatchThenOk 0) exampleDst).2.2 = .error .invalidResponse
    ∧ Socks5Proxy.Connect exampleDst (1 + 1) mismatchThenOk freshProxy
        = Socks5Proxy.Connect exampleDst 1 (fun i => mismatchThenOk (i + 1))
            ((Socks5Proxy.mk 0 true (some 1)).invalidate freshProxy.rtcDialer)
    ∧ ∀ (n : Nat) (envs1 : Nat → DialEnv) (q : Socks5Proxy) (e : Error),
        (Socks5Proxy.Connect exampleDst n envs1 q).2 ≠ some (.error e) :=
  Connect_retries_protocol_mismatch exampleDst 1 mismatchThenOk freshProxy ⟨0, true, some 1⟩
    ((connReading [BIND, TCP]).IdleKiller 0) ⟨BIND, "tcp", []⟩
    dial_fresh_mismatchThenOk (by decide) ReadResponse_bind (Or.inl (by decide))

/-- Counterexample to C9 as stated: the peer answers the first attempt with a Response
whose command is BIND, so `connectOnce` fails with the protocol-mismatch error; yet
`Connect` does not return that error: it runs a second attempt and returns its
success, with the bound address `b:2`. -/
theorem Connect_does_not_surface_mismatch :
    (freshProxy.connectOnce (mismatchThenOk 0) exampleDst).2.2 = .error .invalidResponse
    ∧ (∃ c, (Socks5Proxy.Connect exampleDst 2 mismatchThenOk freshProxy).2
        = some (.ok (c, ⟨"tcp", ascii "b:2"⟩)))
    ∧ (Socks5Proxy.Connect exampleDst 2 mismatchThenOk freshProxy).2
        ≠ some (.error .invalidResponse) := by
  have h0 := connectOnce_mismatch freshProxy (mismatchThenOk 0) exampleDst ⟨0, true, some 1⟩
    ((connReading [BIND, TCP]).IdleKiller 0) ⟨BIND, "tcp", []⟩
    dial_fresh_mismatchThenOk (by decide) ReadResponse_bind (Or.inl (by decide))
  refine ⟨h0.2, ?_, Connect_never_error _ _ _ _ _⟩
  rw [Connect_succ]
  rcases hc : freshProxy.connectOnce (mismatchThenOk 0) exampleDst with ⟨q1, c, r⟩
  rw [hc] at h0
  obtain ⟨h1, h2⟩ := h0
  dsimp only at h1 h2
  subst h1 h2
  dsimp only
  rw [Connect_succ]
  have hrd := ReadResponse_connect
  have hnb : netByte "tcp" = some TCP := by decide
  simp [Socks5Proxy.connectOnce, Socks5Proxy.dial, Socks5Proxy.invalidate, freshProxy,
    mismatchThenOk, exampleDst, connReading, Conn.IdleKiller, Conn.SetReadDeadline,
    Request.WriteTo, Writer.Write, okWriter, hrd, hnb]

theorem ConnectShared_succ (dst : Addr) (fuel : Nat) (envs : Nat → DialEnv)
    (others : Nat → Others) (p : Socks5Proxy) :
    Socks5Proxy.ConnectShared dst (fuel + 1) envs others p =
      match ((others 0).beforeDial p).connectOnce (envs 0) dst with
      | (p1, _, .error _) =>
        Socks5Proxy.ConnectShared dst fuel (fun i => envs (i + 1)) (fun i => others (i + 1))
          ((others 0).afterBranch (((others 0).beforeBranch p1).invalidate p.rtcDialer))
      | (p1, _, r) => (p1, some r) := by
  rw [Socks5Proxy.ConnectShared]

/-- With idle other callers `ConnectShared` is `Connect`. -/
theorem ConnectShared_idle (dst : Addr) (fuel : Nat) :
    ∀ (envs : Nat → DialEnv) (p : Socks5Proxy),
      Socks5Proxy.ConnectShared dst fuel envs (fun _ => Others.idle) p
        = Socks5Proxy.Connect dst fuel envs p := by
  induction fuel with
  | zero => intro envs p; rfl
  | succ n ih =>
    intro envs p
    rw [ConnectShared_succ, Connect_succ]
    simp only [Others.idle, id]
    rcases hc : p.connectOnce (envs 0) dst with ⟨p1, c, r⟩
    cases r with
    | ok a => rfl
    | panic => rfl
    | error e => exact ih _ _

theorem invalidate_same (q : Socks5Proxy) (dialerCopy : Option Nat)
    (h : q.rtcDialer = dialerCopy) :
    q.invalidate dialerCopy = { Timeout := q.Timeout, createDialerOnce := false, rtcDialer := none } := by
  simp [Socks5Proxy.invalidate, h]

theorem invalidate_other (q : Socks5Proxy) (dialerCopy : Option Nat)
    (h : q.rtcDialer ≠ dialerCopy) : q.invalidate dialerCopy = q := by
  simp [Socks5Proxy.invalidate, Ne.symm h]

theorem ConnectShared_one_failure (dst : Addr) (envs : Nat → DialEnv) (others : Nat → Others)
    (p : Socks5Proxy) (e : Error)
    (hfail : (((others 0).beforeDial p).connectOnce (envs 0) dst).2.2 = .error e) :
    Socks5Proxy.ConnectShared dst 1 envs others p
      = ((others 0).afterBranch
          (((others 0).beforeBranch
            (((others 0).beforeDial p).connectOnce (envs 0) dst).1).invalidate p.rtcDialer),
          none) := by
  rw [ConnectShared_succ]
  rcases hc : ((others 0).beforeDial p).connectOnce (envs 0) dst with ⟨p1, c, r⟩
  rw [hc] at hfail
  dsimp only at hfail
  subst hfail
  rfl

theorem Connect_one_failure (dst : Addr) (envs : Nat → DialEnv) (p : Socks5Proxy) (e : Error)
    (hfail : (p.connectOnce (envs 0) dst).2.2 = .error e) :
    Socks5Proxy.Connect dst 1 envs p
      = ((p.connectOnce (envs 0) dst).1.invalidate p.rtcDialer, none) := by
  rw [Connect_succ]
  rcases hc : p.connectOnce (envs 0) dst with ⟨p1, c, r⟩
  rw [hc] at hfail
  dsimp only at hfail
  subst hfail
  rfl

/-- C12: identity-guarded invalidation of the client dialer. A caller runs one
iteration of `Connect` whose `connectOnce` attempt fails, while other callers may act
on the shared proxy between its snapshot, its dial and its failure branch. Let `cur`
be the shared proxy as the failure branch finds it under the lock. The proxy that
iteration leaves is `cur` after the guarded reset: if the dialer of `cur` is the
instance snapshotted before the attempt, the dialer handle is nil and the one-shot
guard is reset; if it is a different instance, it is `cur` exactly, dialer handle and
guard unchanged. `Connect` then goes on from that proxy. The same holds for
`Connect` run alone, where `cur` is the proxy `connectOnce` left. -/
theorem Connect_invalidation_identity_guarded (dst : Addr) (fuel : Nat) (envs : Nat → DialEnv)
    (others : Nat → Others) (p : Socks5Proxy) (e : Error)
    (hfail : (((others 0).beforeDial p).connectOnce (envs 0) dst).2.2 = .error e) :
    (((others 0).beforeBranch (((others 0).beforeDial p).connectOnce (envs 0) dst).1).rtcDialer
        = p.rtcDialer →
      Socks5Proxy.ConnectShared dst 1 envs others p
        = ((others 0).afterBranch
            { Timeout := ((others 0).beforeBranch
                (((others 0).beforeDial p).connectOnce (envs 0) dst).1).Timeout
              createDialerOnce := false
              rtcDialer := none }, none))
    ∧ (((others 0).beforeBranch (((others 0).beforeDial p).connectOnce (envs 0) dst).1).rtcDialer
        ≠ p.rtcDialer →
      Socks5Proxy.ConnectShared dst 1 envs others p
        = ((others 0).afterBranch
            ((others 0).beforeBranch (((others 0).beforeDial p).connectOnce (envs 0) dst).1),
            none))
    ∧ Socks5Proxy.ConnectShared dst (fuel + 1) envs others p
      = Socks5Proxy.ConnectShared dst fuel (fun i => envs (i + 1)) (fun i => others (i + 1))
          ((others 0).afterBranch
            (((others 0).beforeBranch
              (((others 0).beforeDial p).connectOnce (envs 0) dst).1).invalidate p.rtcDialer))
    ∧ (∀ e1, (p.connectOnce (envs 0) dst).2.2 = .error e1 →
        ((p.connectOnce (envs 0) dst).1.rtcDialer = p.rtcDialer →
          Socks5Proxy.Connect dst 1 envs p
            = ({ Timeout := (p.connectOnce (envs 0) dst).1.Timeout
                 createDialerOnce := false
                 rtcDialer := none }, none))
        ∧ ((p.connectOnce (envs 0) dst).1.rtcDialer ≠ p.rtcDialer →
          Socks5Proxy.Connect dst 1 envs p = ((p.connectOnce (envs 0) dst).1, none))
        ∧ Socks5Proxy.Connect dst (fuel + 1) envs p
          = Socks5Proxy.Connect dst fuel (fun i => envs (i + 1))
              ((p.connectOnce (envs 0) dst).1.invalidate p.rtcDialer)) := by
  have h1 := ConnectShared_one_failure dst envs others p e hfail
  refine ⟨?_, ?_, ?_, ?_⟩
  · intro hsame
    rw [h1, invalidate_same _ _ hsame]
  · intro hdiff
    rw [h1, invalidate_other _ _ hdiff]
  · rw [ConnectShared_succ]
    rcases hc : ((others 0).beforeDial p).connectOnce (envs 0) dst with ⟨p1, c, r⟩
    rw [hc] at hfail
    dsimp only at hfail
    subst hfail
    rfl
  · intro e1 hf
    have h2 := Connect_one_failure dst envs p e1 hf
    refine ⟨?_, ?_, ?_⟩
    · intro hsame
      rw [h2, invalidate_same _ _ hsame]
    · intro hdiff
      rw [h2, invalidate_other _ _ hdiff]
    · rw [Connect_succ]
      rcases hc : p.connectOnce (envs 0) dst with ⟨p1, c, r⟩
      rw [hc] at hf
      dsimp only at hf
      subst hf
      rfl

theorem connectOnce_dialFails (q : Socks5Proxy) (hq : q = ⟨0, true, some 1⟩) :
    q.connectOnce dialFails exampleDst
      = (⟨0, true, some 1⟩, none, .error (.transport "dial timeout")) := by
  subst hq
  simp [Socks5Proxy.connectOnce, Socks5Proxy.dial, dialFails]

/-- Witness of C12: a caller snapshots the dialer instance 1 and its dial fails. If
meanwhile another caller has replaced the dialer by the instance 2, the iteration
leaves the instance 2 and its guard in place. If nobody has replaced it, the
iteration leaves the dialer handle nil and the guard reset. -/
theorem Connect_invalidation_identity_guarded_witness :
    Socks5Proxy.ConnectShared exampleDst 1 (fun _ => dialFails) (fun _ => replacedBy2)
        ⟨0, true, some 1⟩ = (⟨0, true, some 2⟩, none)
    ∧ Socks5Proxy.ConnectShared exampleDst 1 (fun _ => dialFails) (fun _ => Others.idle)
        ⟨0, true, some 1⟩ = (⟨0, false, none⟩, none)
    ∧ Socks5Proxy.Connect exampleDst 1 (fun _ => dialFails) ⟨0, true, some 1⟩
        = (⟨0, false, none⟩, none) := by
  have hA : (replacedBy2.beforeDial ⟨0, true, some 1⟩).connectOnce dialFails exampleDst
      = (⟨0, true, some 1⟩, none, .error (.transport "dial timeout")) :=
    connectOnce_dialFails _ rfl
  have hB : (Others.idle.beforeDial ⟨0, true, some 1⟩).connectOnce dialFails exampleDst
      = (⟨0, true, some 1⟩, none, .error (.transport "dial timeout")) :=
    connectOnce_dialFails _ rfl
  have hC : (Socks5Proxy.mk 0 true (some 1)).connectOnce dialFails exampleDst
      = (⟨0, true, some 1⟩, none, .error (.transport "dial timeout")) :=
    connectOnce_dialFails _ rfl
  have ha := Connect_invalidation_identity_guarded exampleDst 0 (fun _ => dialFails)
    (fun _ => replacedBy2) ⟨0, true, some 1⟩ (.transport "dial timeout")
    (by show ((replacedBy2.beforeDial _).connectOnce dialFails exampleDst).2.2 = _; rw [hA])
  have hb := Connect_invalidation_identity_guarded exampleDst 0 (fun _ => dialFails)
    (fun _ => Others.idle) ⟨0, true, some 1⟩ (.transport "dial timeout")
    (by show ((Others.idle.beforeDial _).connectOnce dialFails exampleDst).2.2 = _; rw [hB])
  dsimp only at ha hb
  rw [hA] at ha
  rw [hB, hC] at hb
  refine ⟨?_, ?_, ?_⟩
  · exact ha.2.1 (by decide)
  · exact hb.1 rfl
  · exact (hb.2.2.2 (.transport "dial timeout") rfl).1 rfl

/-! ## Tunnel handshake -/

/-- The method `handleConnect` after a successful dial, in terms of the Response it
builds and writes. -/
theorem handleConnect_dialed (net : NetEnv) (clientConn : Conn) (req : Request) (target : Conn)
    (hd : net.Dial req.NetworkType req.Address = .ok target) :
    Server.handleConnect net clientConn req =
      match (Server.connectResponse req target).WriteTo clientConn.writer with
      | (w1, _, some _) => ({ clientConn with writer := w1 }, some target.Close)
      | (w1, _, none) =>
        (((net.FullPipe (({ clientConn with writer := w1 }).SetDeadline
              (some (net.now + 15 * 60 * second)))
            (target.SetDeadline (some (net.now + 15 * 60 * second)))).1).Close,
          some ((net.FullPipe (({ clientConn with writer := w1 }).SetDeadline
              (some (net.now + 15 * 60 * second)))
            (target.SetDeadline (some (net.now + 15 * 60 * second)))).2).Close.Close) := by
  unfold Server.handleConnect Server.connectResponse
  rw [hd]

theorem WriteTo_known (r : Request) (w : Writer) (t : Byte) (h : netByte r.NetworkType = some t) :
    r.WriteTo w = (⟨w.chunks ++ [r.Command :: t :: r.Address], w.outcome⟩,
      ((w.outcome (r.Command :: t :: r.Address)).1 : Int),
      (w.outcome (r.Command :: t :: r.Address)).2) := by
  simp [Request.WriteTo, h, Writer.Write]

theorem ReadRequest_known (c t : Byte) (nt : String) (addr : List Byte) (r : Reader)
    (hc : c = CONNECT ∨ c = BIND ∨ c = UDP) (ht : netByte nt = some t)
    (hl : addr.length ≤ 1022) (he : r.err = none) (hd : r.data = c :: t :: addr) :
    ReadRequest r = .ok ⟨c, nt, addr⟩ := by
  obtain ⟨e, d, sc⟩ := r
  simp only at he hd
  subst he hd
  rw [ReadRequest_eq _ sc (by simp; omega)]
  have hcmd : ¬ (c ≠ CONNECT ∧ c ≠ BIND ∧ c ≠ UDP) := by
    rcases hc with h | h | h <;> simp [h]
  simp only [hcmd, if_false, netName_netByte _ _ ht]

/-- C14: client and server agree on the tunnel handshake. The destination has the
network "tcp", "tcp4" or "tcp6" and an address of at most 1021 bytes; the client's
dial gives a tunnel on which its write succeeds; the server reads in one read the
bytes the client wrote; the server's outbound dial succeeds with a local address of at
most 1021 bytes; the client reads in one read the bytes the server wrote. Then the
server decodes the client's CONNECT Request; the Response `handleConnect` builds is
encoded without error, as one write of 2 + len(local address) bytes whose result is
the writer's; `ReadResponse` decodes it to Command = CONNECT, the client's
NetworkType and the server's local address; and `connectOnce` accepts it and returns
the tunnel with the server's local address as the bound address. -/
theorem handshake_agrees (p p1 : Socks5Proxy) (env : DialEnv) (dst : Addr) (tunnel : Conn)
    (net : NetEnv) (sconn target : Conn)
    (hn : dst.Network = "tcp" ∨ dst.Network = "tcp4" ∨ dst.Network = "tcp6")
    (hl : dst.String.length ≤ 1021)
    (hdial : p.dial env ⟨dst.Network, dst.String, env.randSeq⟩ = (p1, .ok tunnel))
    (hcw : ((Request.mk CONNECT dst.Network dst.String).WriteTo tunnel.writer).2.2 = none)
    (hsr : sconn.reader.err = none)
    (hsd : ((Request.mk CONNECT dst.Network dst.String).WriteTo tunnel.writer).1.chunks
      = tunnel.writer.chunks ++ [sconn.reader.data])
    (hout : net.Dial dst.Network dst.String = .ok target)
    (hla : target.localAddr.length ≤ 1021)
    (hcr : tunnel.reader.err = none)
    (hcd : ((Server.connectResponse ⟨CONNECT, dst.Network, dst.String⟩ target).WriteTo
        sconn.writer).1.chunks = sconn.writer.chunks ++ [tunnel.reader.data]) :
    ReadRequest sconn.reader = .ok ⟨CONNECT, dst.Network, dst.String⟩
    ∧ (∃ bytes, bytes.length = 2 + target.localAddr.length
        ∧ (Server.connectResponse ⟨CONNECT, dst.Network, dst.String⟩ target).WriteTo sconn.writer
          = (⟨sconn.writer.chunks ++ [bytes], sconn.writer.outcome⟩,
              ((sconn.writer.outcome bytes).1 : Int), (sconn.writer.outcome bytes).2))
    ∧ Server.handleConnect net sconn ⟨CONNECT, dst.Network, dst.String⟩ =
        (match (Server.connectResponse ⟨CONNECT, dst.Network, dst.String⟩ target).WriteTo
            sconn.writer with
          | (w1, _, some _) => ({ sconn with writer := w1 }, some target.Close)
          | (w1, _, none) =>
            (((net.FullPipe (({ sconn with writer := w1 }).SetDeadline
                  (some (net.now + 15 * 60 * second)))
                (target.SetDeadline (some (net.now + 15 * 60 * second)))).1).Close,
              some ((net.FullPipe (({ sconn with writer := w1 }).SetDeadline
                  (some (net.now + 15 * 60 * second)))
                (target.SetDeadline (some (net.now + 15 * 60 * second)))).2).Close.Close))
    ∧ ReadResponse tunnel.reader = .ok ⟨CONNECT, dst.Network, target.localAddr⟩
    ∧ (p.connectOnce env dst).1 = p1
    ∧ ∃ c, (p.connectOnce env dst).2.2 = .ok (c, ⟨dst.Network, target.localAddr⟩) := by
  obtain ⟨t, ht⟩ : ∃ t, netByte dst.Network = some t := by
    rcases hn with h | h | h <;> rw [h] <;> exact ⟨_, rfl⟩
  have hreq := WriteTo_known ⟨CONNECT, dst.Network, dst.String⟩ tunnel.writer t ht
  have hresp := WriteTo_known (Server.connectResponse ⟨CONNECT, dst.Network, dst.String⟩ target)
    sconn.writer t ht
  simp only [Server.connectResponse] at hresp hcd
  rw [hreq] at hsd hcw
  rw [hresp] at hcd
  simp only [List.append_cancel_left_eq, List.cons.injEq, and_true] at hsd hcd
  have hsrv : ReadRequest sconn.reader = .ok ⟨CONNECT, dst.Network, dst.String⟩ :=
    ReadRequest_known CONNECT t dst.Network dst.String sconn.reader (Or.inl rfl) ht
      (by omega) hsr hsd.symm
  have hcli : ReadResponse tunnel.reader = .ok ⟨CONNECT, dst.Network, target.localAddr⟩ :=
    ReadRequest_known CONNECT t dst.Network target.localAddr tunnel.reader (Or.inl rfl) ht
      (by omega) hcr hcd.symm
  refine ⟨hsrv, ⟨CONNECT :: t :: target.localAddr, by simp; omega, ?_⟩,
    handleConnect_dialed net sconn _ target hout, hcli, ?_, ?_⟩
  · simp only [Server.connectResponse]
    exact hresp
  · unfold Socks5Proxy.connectOnce
    rw [hdial]
    dsimp only
    rw [hreq]
    dsimp only at hcw ⊢
    rw [hcw]
    dsimp only [Conn.SetReadDeadline]
    rw [hcli]
    simp
  · unfold Socks5Proxy.connectOnce
    rw [hdial]
    dsimp only
    rw [hreq]
    dsimp only at hcw ⊢
    rw [hcw]
    dsimp only [Conn.SetReadDeadline]
    rw [hcli]
    simp

theorem dial_fresh_handshakeEnv :
    freshProxy.dial handshakeEnv ⟨exampleDst.Network, exampleDst.String, handshakeEnv.randSeq⟩
      = (⟨0, true, some 1⟩,
          .ok ((connReading (CONNECT :: TCP :: ascii "10.0.0.2:40000")).IdleKiller 0)) := by
  simp [Socks5Proxy.dial, freshProxy, handshakeEnv]

/-- Witness of C14: the destination tcp, "a:1"; the server's outbound connection has the
local address "10.0.0.2:40000", which `connectOnce` returns as the bound address. -/
theorem handshake_agrees_witness :
    ∃ c, (freshProxy.connectOnce handshakeEnv exampleDst).2.2
      = .ok (c, ⟨"tcp", ascii "10.0.0.2:40000"⟩) :=
  (handshake_agrees freshProxy ⟨0, true, some 1⟩ handshakeEnv exampleDst
    ((connReading (CONNECT :: TCP :: ascii "10.0.0.2:40000")).IdleKiller 0)
    okNet (connReading (CONNECT :: TCP :: ascii "a:1")) (connReading [])
    (Or.inl rfl) (by decide) dial_fresh_handshakeEnv (by decide) rfl (by decide) rfl
    (by decide) rfl (by decide)).2.2.2.2.2

/-! ## Server listener -/

theorem wrap64_succ_ne (c : Int) : wrap64 (c + 1) ≠ c := by
  unfold wrap64
  omega

theorem wrap64_succ_pred (c : Int) (h1 : -2 ^ 63 ≤ c) (h2 : c < 2 ^ 63) :
    wrap64 (wrap64 (c + 1) - 1) = c := by
  unfold wrap64
  omega

/-- For a CONNECT request the counter of `handleConn` is balanced, whatever the connect
handler does. -/
theorem handleConn_connect_balanced (s : Server) (net : NetEnv) (conn : Conn) (req : Request)
    (hr : ReadRequest conn.reader = .ok req) (hc : req.Command = CONNECT)
    (h1 : -2 ^ 63 ≤ s.activeConnCnt) (h2 : s.activeConnCnt < 2 ^ 63) :
    (s.handleConn net conn).map (fun r => r.1.activeConnCnt) = some s.activeConnCnt := by
  simp [Server.handleConn, hr, hc, wrap64_succ_pred _ h1 h2]

/-- C10 (the code breaks the claim): an inbound connection whose Request decodes to the
command BIND, here the bytes BIND, TCP, "a:1", makes `handleConn` add 1 to the
active-connection counter and return through the `default` branch of its switch
without taking the 1 off again: the counter after the handler is one more than before
(wrapped as an int64), never equal to it. -/
theorem handleConn_bind_leaves_counter_raised (s : Server) (net : NetEnv) :
    (s.handleConn net (connReading (BIND :: TCP :: ascii "a:1"))).map
        (fun r => r.1.activeConnCnt) = some (wrap64 (s.activeConnCnt + 1))
    ∧ wrap64 (s.activeConnCnt + 1) ≠ s.activeConnCnt
    ∧ ((Server.mk 0).handleConn net (connReading (BIND :: TCP :: ascii "a:1"))).map
        (fun r => r.1.activeConnCnt) = some 1 := by
  have hr : ReadRequest (connReading (BIND :: TCP :: ascii "a:1")).reader
      = .ok ⟨BIND, "tcp", ascii "a:1"⟩ := by
    simp only [connReading]
    rw [ReadRequest_eq _ _ (by decide)]
    decide
  have hb : ¬ (BIND = CONNECT) := by decide
  refine ⟨?_, wrap64_succ_ne _, ?_⟩
  · unfold Server.handleConn
    rw [hr]
    simp [hb]
  · unfold Server.handleConn
    rw [hr]
    simp [hb]
    decide

end Socks2rtc
